import Mathlib

/-!
# FrameGraph: resource identities, the Vulkan resource manager and the memory manager

A shallow embedding of `framegraph/Public/IDs.h`,
`framegraph/Vulkan/Systems/VResourceManager.cpp` and
`framegraph/Vulkan/Memory/VMemoryManager.h`.

Machine integers are natural numbers; a conversion to an unsigned type of
width `w` is written `% 2 ^ w`.
-/

namespace FG

/-! ## Resource ID (`IDs.h`, lines 105-145) -/

/-- Modelled from the spec: `UMax` converted to `uint32_t`, the all-ones 32-bit
sentinel. The constant is declared in the `stl` library, outside `src/`. -/
def UMax : Nat := 0xFFFFFFFF

/-- `ResourceID<UID>`: the single member `_value` of type `uint32_t`. -/
structure ResourceID where
  _value : Nat
deriving DecidableEq

namespace ResourceID

/-- `_IndexMask = (1 << sizeof(Index_t)*8) - 1`, stored as `Index_t` (`uint16_t`). -/
def _IndexMask : Nat := ((1 <<< (2 * 8)) - 1) % 2 ^ 16

/-- `_InstOffset = sizeof(Index_t)*8`. -/
def _InstOffset : Nat := 2 * 8

/-- `constexpr ResourceID () {}` with the member initialiser `_value = UMax`. -/
def Default : ResourceID := ⟨UMax⟩

/-- `explicit constexpr ResourceID (Value_t data)`. -/
def ofData (data : Nat) : ResourceID := ⟨data⟩

/-- `explicit constexpr ResourceID (Index_t val, InstanceID_t inst)`:
`_value{Value_t(val) | (Value_t(inst) << _InstOffset)}`, the shift being a
32-bit shift. -/
def ofIndex (val inst : Nat) : ResourceID :=
  ⟨val ||| ((inst <<< _InstOffset) % 2 ^ 32)⟩

/-- `IsValid ()`: `_value != UMax`. -/
def IsValid (r : ResourceID) : Bool := r._value != UMax

/-- `Index ()`: `_value & _IndexMask`, returned as `Index_t`. -/
def Index (r : ResourceID) : Nat := (r._value &&& _IndexMask) % 2 ^ 16

/-- `InstanceID ()`: `_value >> _InstOffset`, returned as `InstanceID_t`. -/
def InstanceID (r : ResourceID) : Nat := (r._value >>> _InstOffset) % 2 ^ 16

/-- `Data ()`. -/
def Data (r : ResourceID) : Nat := r._value

/-- `operator ==`. -/
def eq (a b : ResourceID) : Bool := a._value == b._value

/-- `operator !=`: `not (*this == rhs)`. -/
def ne (a b : ResourceID) : Bool := !(eq a b)

/-- `explicit operator bool ()`: `IsValid()`. -/
def toBool (r : ResourceID) : Bool := r.IsValid

end ResourceID

/-! ## Vulkan object kinds and native destroy entry points -/

/-- Modelled from the spec: the kind tag of a deferred-destroy entry, the Vulkan
enumeration `VkDebugReportObjectTypeEXT`. The enumeration is declared in the
Vulkan headers, outside `src/`; the switch of `_DeleteResources` names twenty of
its enumerators. -/
inductive VkDebugReportObjectTypeEXT
  | VK_DEBUG_REPORT_OBJECT_TYPE_UNKNOWN_EXT
  | VK_DEBUG_REPORT_OBJECT_TYPE_INSTANCE_EXT
  | VK_DEBUG_REPORT_OBJECT_TYPE_PHYSICAL_DEVICE_EXT
  | VK_DEBUG_REPORT_OBJECT_TYPE_DEVICE_EXT
  | VK_DEBUG_REPORT_OBJECT_TYPE_QUEUE_EXT
  | VK_DEBUG_REPORT_OBJECT_TYPE_SEMAPHORE_EXT
  | VK_DEBUG_REPORT_OBJECT_TYPE_COMMAND_BUFFER_EXT
  | VK_DEBUG_REPORT_OBJECT_TYPE_FENCE_EXT
  | VK_DEBUG_REPORT_OBJECT_TYPE_DEVICE_MEMORY_EXT
  | VK_DEBUG_REPORT_OBJECT_TYPE_BUFFER_EXT
  | VK_DEBUG_REPORT_OBJECT_TYPE_IMAGE_EXT
  | VK_DEBUG_REPORT_OBJECT_TYPE_EVENT_EXT
  | VK_DEBUG_REPORT_OBJECT_TYPE_QUERY_POOL_EXT
  | VK_DEBUG_REPORT_OBJECT_TYPE_BUFFER_VIEW_EXT
  | VK_DEBUG_REPORT_OBJECT_TYPE_IMAGE_VIEW_EXT
  | VK_DEBUG_REPORT_OBJECT_TYPE_SHADER_MODULE_EXT
  | VK_DEBUG_REPORT_OBJECT_TYPE_PIPELINE_CACHE_EXT
  | VK_DEBUG_REPORT_OBJECT_TYPE_PIPELINE_LAYOUT_EXT
  | VK_DEBUG_REPORT_OBJECT_TYPE_RENDER_PASS_EXT
  | VK_DEBUG_REPORT_OBJECT_TYPE_PIPELINE_EXT
  | VK_DEBUG_REPORT_OBJECT_TYPE_DESCRIPTOR_SET_LAYOUT_EXT
  | VK_DEBUG_REPORT_OBJECT_TYPE_SAMPLER_EXT
  | VK_DEBUG_REPORT_OBJECT_TYPE_DESCRIPTOR_POOL_EXT
  | VK_DEBUG_REPORT_OBJECT_TYPE_DESCRIPTOR_SET_EXT
  | VK_DEBUG_REPORT_OBJECT_TYPE_FRAMEBUFFER_EXT
  | VK_DEBUG_REPORT_OBJECT_TYPE_COMMAND_POOL_EXT
  | VK_DEBUG_REPORT_OBJECT_TYPE_SURFACE_KHR_EXT
  | VK_DEBUG_REPORT_OBJECT_TYPE_SWAPCHAIN_KHR_EXT
  | VK_DEBUG_REPORT_OBJECT_TYPE_DEBUG_REPORT_CALLBACK_EXT_EXT
  | VK_DEBUG_REPORT_OBJECT_TYPE_DISPLAY_KHR_EXT
  | VK_DEBUG_REPORT_OBJECT_TYPE_DISPLAY_MODE_KHR_EXT
  | VK_DEBUG_REPORT_OBJECT_TYPE_OBJECT_TABLE_NVX_EXT
  | VK_DEBUG_REPORT_OBJECT_TYPE_INDIRECT_COMMANDS_LAYOUT_NVX_EXT
  | VK_DEBUG_REPORT_OBJECT_TYPE_VALIDATION_CACHE_EXT_EXT
  | VK_DEBUG_REPORT_OBJECT_TYPE_SAMPLER_YCBCR_CONVERSION_EXT
  | VK_DEBUG_REPORT_OBJECT_TYPE_DESCRIPTOR_UPDATE_TEMPLATE_EXT
  | VK_DEBUG_REPORT_OBJECT_TYPE_ACCELERATION_STRUCTURE_NVX_EXT
deriving DecidableEq

open VkDebugReportObjectTypeEXT

/-- A native destroy entry point of the device table, applied to the device
`dev` and to the handle; the allocator argument is `null` at every call site of
`_DeleteResources` and is left out. -/
inductive NativeCall
  | vkDestroySemaphore (dev handle : Nat)
  | vkDestroyFence (dev handle : Nat)
  | vkFreeMemory (dev handle : Nat)
  | vkDestroyImage (dev handle : Nat)
  | vkDestroyEvent (dev handle : Nat)
  | vkDestroyQueryPool (dev handle : Nat)
  | vkDestroyBuffer (dev handle : Nat)
  | vkDestroyBufferView (dev handle : Nat)
  | vkDestroyImageView (dev handle : Nat)
  | vkDestroyPipelineLayout (dev handle : Nat)
  | vkDestroyRenderPass (dev handle : Nat)
  | vkDestroyPipeline (dev handle : Nat)
  | vkDestroyDescriptorSetLayout (dev handle : Nat)
  | vkDestroySampler (dev handle : Nat)
  | vkDestroyDescriptorPool (dev handle : Nat)
  | vkDestroyFramebuffer (dev handle : Nat)
  | vkDestroyCommandPool (dev handle : Nat)
  | vkDestroySamplerYcbcrConversion (dev handle : Nat)
  | vkDestroyDescriptorUpdateTemplate (dev handle : Nat)
  | vkDestroyAccelerationStructureNVX (dev handle : Nat)
deriving DecidableEq

/-- Modelled from the spec: the resource kinds that own a pool in the manager
(the alternatives of the variant stored in `_unassignIDs`, declared in
`VResourceManager.h`, outside `src/`): buffers, images, samplers, pipeline
layouts and descriptor-set layouts. -/
inductive EResourceKind
  | Buffer
  | Image
  | Sampler
  | PipelineLayout
  | DescriptorSetLayout
deriving DecidableEq

/-- Modelled from the spec: the kind tag under which a resource of each kind
registers its native handle for deferred destruction. -/
def EResourceKind.objectType : EResourceKind → VkDebugReportObjectTypeEXT
  | .Buffer => VK_DEBUG_REPORT_OBJECT_TYPE_BUFFER_EXT
  | .Image => VK_DEBUG_REPORT_OBJECT_TYPE_IMAGE_EXT
  | .Sampler => VK_DEBUG_REPORT_OBJECT_TYPE_SAMPLER_EXT
  | .PipelineLayout => VK_DEBUG_REPORT_OBJECT_TYPE_PIPELINE_LAYOUT_EXT
  | .DescriptorSetLayout => VK_DEBUG_REPORT_OBJECT_TYPE_DESCRIPTOR_SET_LAYOUT_EXT

/-- Modelled from the spec: an element of `_unassignIDs` (a variant over the weak
identity types, declared in `VResourceManager.h`, outside `src/`): a weak
identity together with its kind. -/
structure UntypedResourceID where
  kind : EResourceKind
  id : ResourceID
deriving DecidableEq

/-- What the manager does that is observable from outside its queues: native
destroy calls, the error log, and the calls it makes on slots and pools. -/
inductive Event
  | native (call : NativeCall)
  | logE
  | destroy (kind : EResourceKind) (index : Nat)
  | removeFromCache (kind : EResourceKind) (index : Nat)
  | unassign (kind : EResourceKind) (index : Nat)
deriving DecidableEq

/-- The native destroy calls of an event list, in order. -/
def nativeCalls (t : List Event) : List NativeCall :=
  t.filterMap fun e => match e with
    | .native c => some c
    | _ => none

/-! ## Resource slots and pools -/

/-- Modelled from the spec: `ResourceBase::EState`, the states of a resource
slot. Only `Initial` is named in `src/`. -/
inductive EState
  | Initial
  | Created
  | Cached
  | PendingDestroy
deriving DecidableEq

/-- Modelled from the spec: a resource slot (`ResourceBase<T>`, outside `src/`):
payload (the raw native handle), state, generation counter and optional cache
key. -/
structure ResourceBase where
  data : Nat
  state : EState
  instanceId : Nat
  cacheKey : Option Nat
deriving DecidableEq

/-- Modelled from the spec: a per-kind slot pool (`PoolTmpl` / `CachedPoolTmpl`,
outside `src/`): the slots, addressed by index, and the free list of indices. -/
structure Pool where
  slots : List ResourceBase
  free : List Nat
deriving DecidableEq

namespace ResourceBase

/-- Modelled from the spec: `GetState ()` reads the state of the slot
(`ResourceBase` is outside `src/`). -/
def GetState (r : ResourceBase) : EState := r.state

/-- Modelled from the spec: a slot that was never created. -/
def fresh : ResourceBase := ⟨0, EState.Initial, 0, none⟩

/-- Modelled from the spec: creation stores the native handle in the slot
(`Initial → Created`). -/
def Create (r : ResourceBase) (handle : Nat) : ResourceBase :=
  { r with data := handle, state := EState.Created }

/-- Modelled from the spec: `Destroy (OUT readyToDelete, OUT unassignIDs)`
enqueues the slot's handle, under the kind tag `tag`, for deferred destruction
and clears the slot's association at once (null handle, state `Initial`). The
slot holds no identity, so the unassignment queue is handed back as it came. -/
def Destroy (r : ResourceBase) (tag : VkDebugReportObjectTypeEXT)
    (readyToDelete : List (VkDebugReportObjectTypeEXT × Nat))
    (unassignIDs : List UntypedResourceID) :
    ResourceBase × List (VkDebugReportObjectTypeEXT × Nat) × List UntypedResourceID :=
  ({ r with data := 0, state := EState.Initial }, readyToDelete ++ [(tag, r.data)], unassignIDs)

end ResourceBase

namespace Pool

/-- Modelled from the spec: `size ()`, the number of slots of the pool (the pool
templates are outside `src/`). -/
def size (p : Pool) : Nat := p.slots.length

/-- Modelled from the spec: write access to the slot at `index` (`operator []` of
the pool templates, outside `src/`); an index outside the pool changes nothing. -/
def update (p : Pool) (index : Nat) (f : ResourceBase → ResourceBase) : Pool :=
  match p.slots[index]? with
  | some r => { p with slots := p.slots.set index (f r) }
  | none => p

/-- Modelled from the spec: `RemoveFromCache (index)` drops the slot's cache key. -/
def RemoveFromCache (p : Pool) (index : Nat) : Pool :=
  p.update index fun r => { r with cacheKey := none }

/-- Modelled from the spec: `Unassign (index)` marks the slot free, bumping its
16-bit generation and returning the index to the free list. -/
def Unassign (p : Pool) (index : Nat) : Pool :=
  match p.slots[index]? with
  | some r =>
      { slots := p.slots.set index { r with instanceId := (r.instanceId + 1) % 2 ^ 16 }
        free := index :: p.free }
  | none => p

/-- Modelled from the spec: `Assign` reuses an index of the free list or, when
the free list is empty and a 16-bit index is left, appends a fresh slot; it
returns the identity made of the index and the slot's current generation. -/
def Assign (p : Pool) : Option (ResourceID × Pool) :=
  match p.free with
  | index :: rest =>
      match p.slots[index]? with
      | some r => some (ResourceID.ofIndex index r.instanceId, { p with free := rest })
      | none => none
  | [] =>
      if p.slots.length < 2 ^ 16 then
        some (ResourceID.ofIndex p.slots.length 0,
          { p with slots := p.slots ++ [ResourceBase.fresh] })
      else none

/-- Modelled from the spec: `Get` resolves an identity to the payload of its
slot and fails when the generation of the identity is not the slot's. -/
def Get (p : Pool) (id : ResourceID) : Option Nat :=
  match p.slots[id.Index]? with
  | some r => if r.instanceId = id.InstanceID then some r.data else none
  | none => none

/-- The pool without slots. -/
def empty : Pool := ⟨[], []⟩

end Pool

/-! ## The resource manager (`VResourceManager.cpp`) -/

/-- The members of `VResourceManager` read by `VResourceManager.cpp`: the device
handle, the deferred-destroy queue `_readyToDelete` with the capacity reserved
for it, the unassignment queue `_unassignIDs`, the three caches flushed by
`OnDestroy`, and (modelled from the spec) the buffer and image pools. `trace`
records the events in the order in which they happen. -/
structure VResourceManager where
  _device : Nat
  _bufferPool : Pool
  _imagePool : Pool
  _samplerCache : Pool
  _pplnLayoutCache : Pool
  _dsLayoutCache : Pool
  _readyToDelete : List (VkDebugReportObjectTypeEXT × Nat)
  _readyToDeleteReserved : Nat
  _unassignIDs : List UntypedResourceID
  trace : List Event
deriving DecidableEq

namespace VResourceManager

/-- The constructor: `_readyToDelete.reserve( 256 )` on an empty queue. -/
def new (dev : Nat) : VResourceManager :=
  { _device := dev
    _bufferPool := Pool.empty
    _imagePool := Pool.empty
    _samplerCache := Pool.empty
    _pplnLayoutCache := Pool.empty
    _dsLayoutCache := Pool.empty
    _readyToDelete := []
    _readyToDeleteReserved := 256
    _unassignIDs := []
    trace := [] }

/-- The assertion of the destructor: `ASSERT( _readyToDelete.empty() )`. -/
def destructorAssertion (m : VResourceManager) : Bool := m._readyToDelete.isEmpty

/-- `OnBeginFrame ()`: empty body. -/
def OnBeginFrame (m : VResourceManager) : VResourceManager := m

/-- Modelled from the spec: `_GetResourcePool (id)` resolves an identity, by its
kind, to the pool that owns it. -/
def _GetResourcePool (m : VResourceManager) : EResourceKind → Pool
  | .Buffer => m._bufferPool
  | .Image => m._imagePool
  | .Sampler => m._samplerCache
  | .PipelineLayout => m._pplnLayoutCache
  | .DescriptorSetLayout => m._dsLayoutCache

/-- Writes back the pool of a kind (the pools are passed by reference). -/
def setResourcePool (m : VResourceManager) (k : EResourceKind) (p : Pool) : VResourceManager :=
  match k with
  | .Buffer => { m with _bufferPool := p }
  | .Image => { m with _imagePool := p }
  | .Sampler => { m with _samplerCache := p }
  | .PipelineLayout => { m with _pplnLayoutCache := p }
  | .DescriptorSetLayout => { m with _dsLayoutCache := p }

/-- Modelled from the spec: `_UnassignResource (pool, id)` marks the slot of the
identity free in its pool. -/
def _UnassignResource (m : VResourceManager) (vid : UntypedResourceID) : VResourceManager :=
  { m.setResourcePool vid.kind ((m._GetResourcePool vid.kind).Unassign vid.id.Index) with
    trace := m.trace ++ [Event.unassign vid.kind vid.id.Index] }

/-- `_UnassignResourceIDs ()`: visits every queued identity, then clears the
queue. -/
def _UnassignResourceIDs (m : VResourceManager) : VResourceManager :=
  { m._unassignIDs.foldl _UnassignResource m with _unassignIDs := [] }

/-- The `switch` of `_DeleteResources` on one queue entry `pair`. -/
def _DeleteResources.dispatch (dev : Nat) (pair : VkDebugReportObjectTypeEXT × Nat) : Event :=
  match pair.1 with
  | VK_DEBUG_REPORT_OBJECT_TYPE_SEMAPHORE_EXT => .native (.vkDestroySemaphore dev pair.2)
  | VK_DEBUG_REPORT_OBJECT_TYPE_FENCE_EXT => .native (.vkDestroyFence dev pair.2)
  | VK_DEBUG_REPORT_OBJECT_TYPE_DEVICE_MEMORY_EXT => .native (.vkFreeMemory dev pair.2)
  | VK_DEBUG_REPORT_OBJECT_TYPE_IMAGE_EXT => .native (.vkDestroyImage dev pair.2)
  | VK_DEBUG_REPORT_OBJECT_TYPE_EVENT_EXT => .native (.vkDestroyEvent dev pair.2)
  | VK_DEBUG_REPORT_OBJECT_TYPE_QUERY_POOL_EXT => .native (.vkDestroyQueryPool dev pair.2)
  | VK_DEBUG_REPORT_OBJECT_TYPE_BUFFER_EXT => .native (.vkDestroyBuffer dev pair.2)
  | VK_DEBUG_REPORT_OBJECT_TYPE_BUFFER_VIEW_EXT => .native (.vkDestroyBufferView dev pair.2)
  | VK_DEBUG_REPORT_OBJECT_TYPE_IMAGE_VIEW_EXT => .native (.vkDestroyImageView dev pair.2)
  | VK_DEBUG_REPORT_OBJECT_TYPE_PIPELINE_LAYOUT_EXT =>
      .native (.vkDestroyPipelineLayout dev pair.2)
  | VK_DEBUG_REPORT_OBJECT_TYPE_RENDER_PASS_EXT => .native (.vkDestroyRenderPass dev pair.2)
  | VK_DEBUG_REPORT_OBJECT_TYPE_PIPELINE_EXT => .native (.vkDestroyPipeline dev pair.2)
  | VK_DEBUG_REPORT_OBJECT_TYPE_DESCRIPTOR_SET_LAYOUT_EXT =>
      .native (.vkDestroyDescriptorSetLayout dev pair.2)
  | VK_DEBUG_REPORT_OBJECT_TYPE_SAMPLER_EXT => .native (.vkDestroySampler dev pair.2)
  | VK_DEBUG_REPORT_OBJECT_TYPE_DESCRIPTOR_POOL_EXT =>
      .native (.vkDestroyDescriptorPool dev pair.2)
  | VK_DEBUG_REPORT_OBJECT_TYPE_FRAMEBUFFER_EXT => .native (.vkDestroyFramebuffer dev pair.2)
  | VK_DEBUG_REPORT_OBJECT_TYPE_COMMAND_POOL_EXT => .native (.vkDestroyCommandPool dev pair.2)
  | VK_DEBUG_REPORT_OBJECT_TYPE_SAMPLER_YCBCR_CONVERSION_EXT =>
      .native (.vkDestroySamplerYcbcrConversion dev pair.2)
  | VK_DEBUG_REPORT_OBJECT_TYPE_DESCRIPTOR_UPDATE_TEMPLATE_EXT =>
      .native (.vkDestroyDescriptorUpdateTemplate dev pair.2)
  | VK_DEBUG_REPORT_OBJECT_TYPE_ACCELERATION_STRUCTURE_NVX_EXT =>
      .native (.vkDestroyAccelerationStructureNVX dev pair.2)
  | _ => .logE

/-- `_DeleteResources ()`: reads the device, runs the `switch` on every entry of
`_readyToDelete` in order, then clears the queue. -/
def _DeleteResources (m : VResourceManager) : VResourceManager :=
  let dev := m._device
  { m._readyToDelete.foldl
      (fun acc pair => { acc with trace := acc.trace ++ [_DeleteResources.dispatch dev pair] }) m
    with _readyToDelete := [] }

/-- `OnEndFrame ()`: `_DeleteResources(); _UnassignResourceIDs();`. -/
def OnEndFrame (m : VResourceManager) : VResourceManager :=
  _UnassignResourceIDs (_DeleteResources m)

/-- The body of the loop of `_DestroyResourceCache` at the counter value `i`, on
the cache of kind `k`. -/
def _DestroyResourceCache.body (k : EResourceKind) (m : VResourceManager) (i : Nat) :
    VResourceManager :=
  let id := i % 2 ^ 16
  match (m._GetResourcePool k).slots[id]? with
  | none => m
  | some data =>
      if data.GetState ≠ EState.Initial then
        let r := data.Destroy k.objectType m._readyToDelete m._unassignIDs
        let res := (m._GetResourcePool k).update id fun _ => r.1
        let res := res.RemoveFromCache id
        let res := res.Unassign id
        { m.setResourcePool k res with
          _readyToDelete := r.2.1
          _unassignIDs := r.2.2
          trace := m.trace ++
            [Event.destroy k id, Event.removeFromCache k id, Event.unassign k id] }
      else m

/-- `_DestroyResourceCache (res)`, `res` being the cache of kind `k`:
`for (size_t i = 0, count = res.size(); i < count; ++i)`. -/
def _DestroyResourceCache (k : EResourceKind) (m : VResourceManager) : VResourceManager :=
  (List.range (m._GetResourcePool k).size).foldl (_DestroyResourceCache.body k) m

/-- `OnDestroy ()`: flushes the sampler, pipeline-layout and descriptor-set-layout
caches in this order, then calls `OnEndFrame()`. -/
def OnDestroy (m : VResourceManager) : VResourceManager :=
  OnEndFrame
    (_DestroyResourceCache .DescriptorSetLayout
      (_DestroyResourceCache .PipelineLayout
        (_DestroyResourceCache .Sampler m)))

/-- Modelled from the spec: creation of an image: `Assign` takes a slot of the
image pool and the native handle is stored in it. -/
def CreateImage (m : VResourceManager) (handle : Nat) : Option (ResourceID × VResourceManager) :=
  match m._imagePool.Assign with
  | some (id, pool) =>
      some (id, { m with _imagePool := pool.update id.Index fun r => r.Create handle })
  | none => none

/-- Modelled from the spec: the per-kind `Unassign` of the manager, called on the
last release of an identity: it enqueues the slot's handle for deferred
destruction and queues the identity for unassignment. -/
def Unassign (m : VResourceManager) (vid : UntypedResourceID) : VResourceManager :=
  match (m._GetResourcePool vid.kind).slots[vid.id.Index]? with
  | none => m
  | some data =>
      if data.instanceId = vid.id.InstanceID then
        let r := data.Destroy vid.kind.objectType m._readyToDelete m._unassignIDs
        { m.setResourcePool vid.kind
            ((m._GetResourcePool vid.kind).update vid.id.Index fun _ => r.1) with
          _readyToDelete := r.2.1
          _unassignIDs := r.2.2 ++ [vid]
          trace := m.trace ++ [Event.destroy vid.kind vid.id.Index] }
      else m

/-- Modelled from the spec: lookup of an image identity in the image pool. -/
def GetImage (m : VResourceManager) (id : ResourceID) : Option Nat := m._imagePool.Get id

end VResourceManager

/-! ## Reference definitions used to state the claims -/

/-- The kind → destroy-function table of the design notes: the supported kind
tags, each with the native entry point that destroys an object of that kind. -/
def destroyTable : List (VkDebugReportObjectTypeEXT × (Nat → Nat → NativeCall)) :=
  [ (VK_DEBUG_REPORT_OBJECT_TYPE_SEMAPHORE_EXT, NativeCall.vkDestroySemaphore),
    (VK_DEBUG_REPORT_OBJECT_TYPE_FENCE_EXT, NativeCall.vkDestroyFence),
    (VK_DEBUG_REPORT_OBJECT_TYPE_DEVICE_MEMORY_EXT, NativeCall.vkFreeMemory),
    (VK_DEBUG_REPORT_OBJECT_TYPE_IMAGE_EXT, NativeCall.vkDestroyImage),
    (VK_DEBUG_REPORT_OBJECT_TYPE_EVENT_EXT, NativeCall.vkDestroyEvent),
    (VK_DEBUG_REPORT_OBJECT_TYPE_QUERY_POOL_EXT, NativeCall.vkDestroyQueryPool),
    (VK_DEBUG_REPORT_OBJECT_TYPE_BUFFER_EXT, NativeCall.vkDestroyBuffer),
    (VK_DEBUG_REPORT_OBJECT_TYPE_BUFFER_VIEW_EXT, NativeCall.vkDestroyBufferView),
    (VK_DEBUG_REPORT_OBJECT_TYPE_IMAGE_VIEW_EXT, NativeCall.vkDestroyImageView),
    (VK_DEBUG_REPORT_OBJECT_TYPE_PIPELINE_LAYOUT_EXT, NativeCall.vkDestroyPipelineLayout),
    (VK_DEBUG_REPORT_OBJECT_TYPE_RENDER_PASS_EXT, NativeCall.vkDestroyRenderPass),
    (VK_DEBUG_REPORT_OBJECT_TYPE_PIPELINE_EXT, NativeCall.vkDestroyPipeline),
    (VK_DEBUG_REPORT_OBJECT_TYPE_DESCRIPTOR_SET_LAYOUT_EXT,
      NativeCall.vkDestroyDescriptorSetLayout),
    (VK_DEBUG_REPORT_OBJECT_TYPE_SAMPLER_EXT, NativeCall.vkDestroySampler),
    (VK_DEBUG_REPORT_OBJECT_TYPE_DESCRIPTOR_POOL_EXT, NativeCall.vkDestroyDescriptorPool),
    (VK_DEBUG_REPORT_OBJECT_TYPE_FRAMEBUFFER_EXT, NativeCall.vkDestroyFramebuffer),
    (VK_DEBUG_REPORT_OBJECT_TYPE_COMMAND_POOL_EXT, NativeCall.vkDestroyCommandPool),
    (VK_DEBUG_REPORT_OBJECT_TYPE_SAMPLER_YCBCR_CONVERSION_EXT,
      NativeCall.vkDestroySamplerYcbcrConversion),
    (VK_DEBUG_REPORT_OBJECT_TYPE_DESCRIPTOR_UPDATE_TEMPLATE_EXT,
      NativeCall.vkDestroyDescriptorUpdateTemplate),
    (VK_DEBUG_REPORT_OBJECT_TYPE_ACCELERATION_STRUCTURE_NVX_EXT,
      NativeCall.vkDestroyAccelerationStructureNVX) ]

/-- The destroy function associated with a kind tag, if the tag is supported. -/
def destroyFunctionOf (tag : VkDebugReportObjectTypeEXT) : Option (Nat → Nat → NativeCall) :=
  (destroyTable.find? fun e => decide (e.1 = tag)).map fun e => e.2

/-- A kind tag is supported when the table has a destroy function for it. -/
def isSupported (tag : VkDebugReportObjectTypeEXT) : Bool := (destroyFunctionOf tag).isSome

/-- The native destroy call owed to a queue entry: the destroy function of its
tag applied to its handle; none for an unrecognised tag. -/
def destroyCallOf (dev : Nat) (entry : VkDebugReportObjectTypeEXT × Nat) : Option NativeCall :=
  (destroyFunctionOf entry.1).map fun f => f dev entry.2

/-- The event expected of a queue entry: its destroy call, or the error log for
an unrecognised tag. -/
def expectedEvent (dev : Nat) (entry : VkDebugReportObjectTypeEXT × Nat) : Event :=
  match destroyCallOf dev entry with
  | some call => Event.native call
  | none => Event.logE

/-- The event of the unassignment of a queued identity. -/
def unassignEvent (vid : UntypedResourceID) : Event := Event.unassign vid.kind vid.id.Index

/-- The indices, in queue order, of the queued identities of kind `k`. -/
def queuedIndices (k : EResourceKind) (q : List UntypedResourceID) : List Nat :=
  (q.filter fun vid => decide (vid.kind = k)).map fun vid => vid.id.Index

/-- What happens to the manager between two frame boundaries, as far as the
deferred-destroy queue is concerned: an entry is appended at the tail of
`_readyToDelete`, or the frame ends. -/
inductive FrameOp
  | enqueue (entry : VkDebugReportObjectTypeEXT × Nat)
  | endFrame
deriving DecidableEq

/-- One step of a run. -/
def FrameOp.apply (m : VResourceManager) : FrameOp → VResourceManager
  | .enqueue entry => { m with _readyToDelete := m._readyToDelete ++ [entry] }
  | .endFrame => m.OnEndFrame

/-- A run: the operations applied from left to right. -/
def runOps (ops : List FrameOp) (m : VResourceManager) : VResourceManager :=
  ops.foldl FrameOp.apply m

/-- The entries enqueued by a run, in order. -/
def enqueued (ops : List FrameOp) : List (VkDebugReportObjectTypeEXT × Nat) :=
  ops.filterMap fun op => match op with
    | .enqueue entry => some entry
    | .endFrame => none

/-- The destroy calls still owed to the entries waiting in the queue. -/
def pendingCalls (m : VResourceManager) : List NativeCall :=
  m._readyToDelete.filterMap (destroyCallOf m._device)

/-- The scenario of the image reuse: three images occupy the indices 0 to 2, image
A is created, released and unassigned at the frame boundary, then image B is
created. The result is the identity of A, the identity of B and the manager. -/
def imageReuseScenario : Option (ResourceID × ResourceID × VResourceManager) := do
  let (_, m) ← (VResourceManager.new 1).CreateImage 10
  let (_, m) ← m.CreateImage 11
  let (_, m) ← m.CreateImage 12
  let (a, m) ← m.CreateImage 13
  let m := (m.Unassign ⟨EResourceKind.Image, a⟩).OnEndFrame
  let (b, m) ← m.CreateImage 14
  pure (a, b, m)

/-- The scenario of the long queue: a new manager (capacity 256 reserved) on whose
queue 300 image handles are enqueued within one frame. -/
def longQueueScenario : VResourceManager :=
  runOps ((List.range 300).map fun i =>
    FrameOp.enqueue (VK_DEBUG_REPORT_OBJECT_TYPE_IMAGE_EXT, i + 1)) (VResourceManager.new 1)

/-! ## Reference definitions for the flush of the caches -/

/-- The slot at `index` exists and is not in the `Initial` state. -/
def Pool.isLive (p : Pool) (index : Nat) : Bool :=
  match p.slots[index]? with
  | some r => decide (r.state ≠ EState.Initial)
  | none => false

/-- The indices below `n`, in increasing order, of the slots not in the `Initial`
state. -/
def Pool.liveIndices (p : Pool) (n : Nat) : List Nat := (List.range n).filter p.isLive

/-- The payload of the slot at `index` (the null handle outside the pool). -/
def Pool.handleAt (p : Pool) (index : Nat) : Nat :=
  match p.slots[index]? with
  | some r => r.data
  | none => 0

/-- A slot after its eviction: destroyed, removed from the cache and unassigned
if it was not in the `Initial` state, untouched otherwise. -/
def evictedSlot (r : ResourceBase) : ResourceBase :=
  if r.state ≠ EState.Initial then
    { data := 0, state := EState.Initial, instanceId := (r.instanceId + 1) % 2 ^ 16,
      cacheKey := none }
  else r

/-- A pool whose slots below `n` have been evicted, the freed indices pushed on
the free list one after the other. -/
def Pool.evictedBelow (p : Pool) (n : Nat) : Pool :=
  { slots := (p.slots.take n).map evictedSlot ++ p.slots.drop n
    free := (p.liveIndices n).reverse ++ p.free }

/-- The events of the eviction of the slots `indices` of the cache of kind `k`:
`Destroy`, `RemoveFromCache` and `Unassign` on each in turn. -/
def evictionEvents (k : EResourceKind) (indices : List Nat) : List Event :=
  indices.flatMap fun i => [Event.destroy k i, Event.removeFromCache k i, Event.unassign k i]

/-- The deferred-destroy entries queued by the eviction of the slots `indices`
of the pool `p` of kind `k`. -/
def evictionEntries (k : EResourceKind) (p : Pool) (indices : List Nat) :
    List (VkDebugReportObjectTypeEXT × Nat) :=
  indices.map fun i => (k.objectType, p.handleAt i)

/-- A cache is empty when none of its slots holds an entry, that is when every
slot is in the `Initial` state. -/
def Pool.isEmptyCache (p : Pool) : Bool := p.slots.all fun r => decide (r.state = EState.Initial)

/-- The manager after `n` turns of the loop of `_DestroyResourceCache` on the
cache of kind `k`: the slots below `n` evicted, their handles queued for
destruction, the events of the evictions recorded. -/
def VResourceManager.evictedBelow (k : EResourceKind) (m : VResourceManager) (n : Nat) :
    VResourceManager :=
  { m.setResourcePool k ((m._GetResourcePool k).evictedBelow n) with
    _readyToDelete := m._readyToDelete ++
      evictionEntries k (m._GetResourcePool k) ((m._GetResourcePool k).liveIndices n)
    trace := m.trace ++ evictionEvents k ((m._GetResourcePool k).liveIndices n) }

/-- The kinds of the three caches flushed by `OnDestroy`, in the order of the
flush. -/
def cacheKinds : List EResourceKind :=
  [EResourceKind.Sampler, EResourceKind.PipelineLayout, EResourceKind.DescriptorSetLayout]

/-- The indices of all the slots of the pool of kind `k` that hold an entry. -/
def VResourceManager.liveSlots (m : VResourceManager) (k : EResourceKind) : List Nat :=
  (m._GetResourcePool k).liveIndices (m._GetResourcePool k).size

/-- The deferred-destroy entries queued by the flush of the three caches. -/
def flushEntries (m : VResourceManager) : List (VkDebugReportObjectTypeEXT × Nat) :=
  cacheKinds.flatMap fun k => evictionEntries k (m._GetResourcePool k) (m.liveSlots k)

/-- The events of the flush of the three caches. -/
def flushEvents (m : VResourceManager) : List Event :=
  cacheKinds.flatMap fun k => evictionEvents k (m.liveSlots k)

/-- The scenario of the shutdown: two sampler entries and one pipeline-layout
entry remain in the caches. -/
def shutdownScenario : VResourceManager :=
  { VResourceManager.new 1 with
    _samplerCache := ⟨[⟨11, EState.Cached, 0, some 100⟩, ⟨12, EState.Cached, 0, some 200⟩], []⟩
    _pplnLayoutCache := ⟨[⟨21, EState.Cached, 0, some 300⟩], []⟩ }

/-- An event of the pools: a call on a slot or on a pool, not a native call and
not the error log. -/
def Event.isPoolEvent : Event → Bool
  | .native _ => false
  | .logE => false
  | _ => true

/-- A manager whose deferred-destroy queue holds one entry with a kind tag that
the drain does not recognise. -/
def unknownTagScenario : VResourceManager :=
  { VResourceManager.new 1 with
    _readyToDelete := [(VK_DEBUG_REPORT_OBJECT_TYPE_SHADER_MODULE_EXT, 7)] }

/-- A manager whose sampler cache holds one entry, at index 0 with generation 0,
and whose unassignment queue holds the identity `(0, 0)` of that entry. -/
def queuedLiveSlotScenario : VResourceManager :=
  { VResourceManager.new 1 with
    _samplerCache := ⟨[⟨11, EState.Created, 0, none⟩], []⟩
    _unassignIDs := [⟨EResourceKind.Sampler, ResourceID.ofIndex 0 0⟩] }

/-! ## Wrapper for Resource ID (`IDs.h`, lines 156-189) -/

/-- `ResourceIDWrap< ResourceID<UID> >`: the single member `_id`. -/
structure ResourceIDWrap where
  _id : ResourceID
deriving DecidableEq

namespace ResourceIDWrap

/-- `ResourceIDWrap () {}`: `_id` is default-constructed. -/
def new : ResourceIDWrap := ⟨ResourceID.Default⟩

/-- `explicit ResourceIDWrap (const ID_t &id) : _id{id} {}`. -/
def ofID (id : ResourceID) : ResourceIDWrap := ⟨id⟩

/-- `IsValid ()`: `_id.IsValid()`. -/
def IsValid (w : ResourceIDWrap) : Bool := w._id.IsValid

/-- `ResourceIDWrap (Self &&other) : _id{other._id} { other._id = Default; }`: the
constructed wrapper and the source after the move. -/
def moveConstruct (other : ResourceIDWrap) : ResourceIDWrap × ResourceIDWrap :=
  (⟨other._id⟩, { other with _id := ResourceID.Default })

/-- The assertion of the destructor: `ASSERT(not IsValid())`. -/
def destructorAssertion (w : ResourceIDWrap) : Bool := !w.IsValid

/-- The assertion of `operator = (Self &&rhs)`: `ASSERT(not IsValid())` on the
target. -/
def moveAssignAssertion (self : ResourceIDWrap) : Bool := !self.IsValid

/-- `operator = (Self &&rhs)` past its assertion: `_id = rhs._id; rhs._id = Default;`.
The target and the source after the assignment. -/
def moveAssign (self rhs : ResourceIDWrap) : ResourceIDWrap × ResourceIDWrap :=
  ({ self with _id := rhs._id }, { rhs with _id := ResourceID.Default })

/-- `Release ()`: `ID_t temp{_id}; _id = Default; return temp;`. The returned
identity and the wrapper afterwards. -/
def Release (w : ResourceIDWrap) : ResourceID × ResourceIDWrap :=
  (w._id, { w with _id := ResourceID.Default })

/-- `Get () const`: `return _id;`. The returned identity and the wrapper
afterwards, which a `const` method leaves as it was. -/
def Get (w : ResourceIDWrap) : ResourceID × ResourceIDWrap := (w._id, w)

/-- `operator ==`: `_id == rhs._id`. -/
def eq (a b : ResourceIDWrap) : Bool := ResourceID.eq a._id b._id

/-- `operator !=`: `_id != rhs._id`. -/
def ne (a b : ResourceIDWrap) : Bool := ResourceID.ne a._id b._id

/-- `explicit operator bool ()`: `IsValid()`. -/
def toBool (w : ResourceIDWrap) : Bool := w.IsValid

/-- `operator ID_t ()`: `return _id;`. -/
def toID (w : ResourceIDWrap) : ResourceID := w._id

end ResourceIDWrap

/-- What a program does to the wrappers it holds, each wrapper being named by its
position in the list of the wrappers constructed so far: move-construct a new
wrapper from one, move-assign one to another, release one, or default-construct
a new one. -/
inductive WrapOp
  | moveConstruct (src : Nat)
  | moveAssign (dst src : Nat)
  | release (index : Nat)
  | defaultConstruct
deriving DecidableEq

/-- One step on the wrappers. In a move-assignment the two statements of
`operator =` run one after the other on the objects named, which may be the same
object. A position that names no wrapper changes nothing. -/
def WrapOp.apply (s : List ResourceIDWrap) : WrapOp → List ResourceIDWrap
  | .moveConstruct src =>
      match s[src]? with
      | some w => s.set src w.moveConstruct.2 ++ [w.moveConstruct.1]
      | none => s
  | .moveAssign dst src =>
      match s[dst]?, s[src]? with
      | some a, some b => (s.set dst (a.moveAssign b).1).set src (a.moveAssign b).2
      | _, _ => s
  | .release index =>
      match s[index]? with
      | some w => s.set index w.Release.2
      | none => s
  | .defaultConstruct => s ++ [ResourceIDWrap.new]

/-- A run of steps on the wrappers, from left to right. -/
def runWrapOps (ops : List WrapOp) (s : List ResourceIDWrap) : List ResourceIDWrap :=
  ops.foldl WrapOp.apply s

/-- The number of valid wrappers. -/
def validCount (s : List ResourceIDWrap) : Nat := s.countP fun w => w.IsValid

/-! ## ID With String (`IDs.h`, lines 17-97) -/

/-- Modelled from the spec: `HashVal`, the value of a content hash, compared as an
unsigned integer. The type is declared in the `stl` library, outside `src/`. -/
abbrev HashVal := Nat

/-- Modelled from the spec: `UMax` converted to `size_t`, the length passed to
`CT_Hash` for a null-terminated string. -/
def UMaxSize : Nat := 2 ^ 64 - 1

/-- Modelled from the spec: `CT_Hash (str, len, seed)` (`stl/CompileTime/Hash.h`,
outside `src/`), the content hash, with the seed `seed`, of the first `len`
characters of the string `str`, or of all of them when there are fewer. The
mixing function `H` of the hash is a parameter. -/
def CT_Hash (H : List Char → Nat → HashVal) (str : List Char) (len : Nat) (seed : Nat) :
    HashVal :=
  H (str.take len) seed

/-- `IDWithString< Size, UID, Optimize, Seed >`, the primary template, used when
`Optimize` is true: the single member `_hash`. -/
structure IDWithString where
  _hash : HashVal
deriving DecidableEq

namespace IDWithString

/-- `_emptyHash = CT_Hash( "", 0, Seed )`. -/
def _emptyHash (H : List Char → Nat → HashVal) (Seed : Nat) : HashVal := CT_Hash H [] 0 Seed

/-- `constexpr IDWithString () : _hash{_emptyHash} {}`. -/
def new (H : List Char → Nat → HashVal) (Seed : Nat) : IDWithString := ⟨_emptyHash H Seed⟩

/-- `explicit constexpr IDWithString (HashVal hash)`. -/
def ofHash (hash : HashVal) : IDWithString := ⟨hash⟩

/-- `explicit constexpr IDWithString (StringView name)`:
`_hash{CT_Hash( name.data(), name.length(), Seed )}`. -/
def ofStringView (H : List Char → Nat → HashVal) (Seed : Nat) (name : List Char) :
    IDWithString :=
  ⟨CT_Hash H name name.length Seed⟩

/-- `explicit constexpr IDWithString (const char *name)`:
`_hash{CT_Hash( name, UMax, Seed )}`. -/
def ofCString (H : List Char → Nat → HashVal) (Seed : Nat) (name : List Char) : IDWithString :=
  ⟨CT_Hash H name UMaxSize Seed⟩

/-- `operator ==`: `_hash == rhs._hash`. -/
def eq (a b : IDWithString) : Bool := a._hash == b._hash

/-- `operator !=`: `not (*this == rhs)`. -/
def ne (a b : IDWithString) : Bool := !(eq a b)

/-- `operator >`: `_hash > rhs._hash`. -/
def gt (a b : IDWithString) : Bool := decide (a._hash > b._hash)

/-- `operator <`: `rhs > *this`. -/
def lt (a b : IDWithString) : Bool := gt b a

/-- `operator >=`: `not (*this < rhs)`. -/
def ge (a b : IDWithString) : Bool := !(lt a b)

/-- `operator <=`: `not (*this > rhs)`. -/
def le (a b : IDWithString) : Bool := !(gt a b)

/-- `GetHash ()`. -/
def GetHash (a : IDWithString) : HashVal := a._hash

/-- `IsDefined ()`: `_hash != _emptyHash`. -/
def IsDefined (H : List Char → Nat → HashVal) (Seed : Nat) (a : IDWithString) : Bool :=
  a._hash != _emptyHash H Seed

/-- `IsOptimized ()`. -/
def IsOptimized : Bool := true

/-- `GetSeed ()`. -/
def GetSeed (Seed : Nat) : Nat := Seed

end IDWithString

/-- `IDWithString< Size, UID, false, Seed >`, the specialisation for `Optimize`
false: the members `_hash` and `_name`. -/
structure IDWithStringFalse where
  _hash : HashVal
  _name : List Char
deriving DecidableEq

namespace IDWithStringFalse

/-- `_emptyHash = CT_Hash( "", 0, Seed )`. -/
def _emptyHash (H : List Char → Nat → HashVal) (Seed : Nat) : HashVal := CT_Hash H [] 0 Seed

/-- `constexpr IDWithString () : _hash{_emptyHash} {}`; `_name` is empty. -/
def new (H : List Char → Nat → HashVal) (Seed : Nat) : IDWithStringFalse :=
  ⟨_emptyHash H Seed, []⟩

/-- `explicit constexpr IDWithString (HashVal hash)`; `_name` is empty. -/
def ofHash (hash : HashVal) : IDWithStringFalse := ⟨hash, []⟩

/-- `explicit constexpr IDWithString (StringView name)`:
`_hash{CT_Hash( name.data(), name.length(), Seed )}, _name{name}`. The constructor
from a `StaticString` reads the same. -/
def ofStringView (H : List Char → Nat → HashVal) (Seed : Nat) (name : List Char) :
    IDWithStringFalse :=
  ⟨CT_Hash H name name.length Seed, name⟩

/-- `explicit constexpr IDWithString (const char *name)`:
`_hash{CT_Hash( name, UMax, Seed )}, _name{name}`. -/
def ofCString (H : List Char → Nat → HashVal) (Seed : Nat) (name : List Char) :
    IDWithStringFalse :=
  ⟨CT_Hash H name UMaxSize Seed, name⟩

/-- `operator ==`: `_hash == rhs._hash`. -/
def eq (a b : IDWithStringFalse) : Bool := a._hash == b._hash

/-- `operator !=`: `not (*this == rhs)`. -/
def ne (a b : IDWithStringFalse) : Bool := !(eq a b)

/-- `operator >`: `_hash > rhs._hash`. -/
def gt (a b : IDWithStringFalse) : Bool := decide (a._hash > b._hash)

/-- `operator <`: `rhs > *this`. -/
def lt (a b : IDWithStringFalse) : Bool := gt b a

/-- `operator >=`: `not (*this < rhs)`. -/
def ge (a b : IDWithStringFalse) : Bool := !(lt a b)

/-- `operator <=`: `not (*this > rhs)`. -/
def le (a b : IDWithStringFalse) : Bool := !(gt a b)

/-- `operator Optimized_t ()`: `Optimized_t{ _hash }`. -/
def toOptimized (a : IDWithStringFalse) : IDWithString := IDWithString.ofHash a._hash

/-- `GetName ()`. -/
def GetName (a : IDWithStringFalse) : List Char := a._name

/-- `GetHash ()`. -/
def GetHash (a : IDWithStringFalse) : HashVal := a._hash

/-- `IsDefined ()`: `_hash != _emptyHash`. -/
def IsDefined (H : List Char → Nat → HashVal) (Seed : Nat) (a : IDWithStringFalse) : Bool :=
  a._hash != _emptyHash H Seed

/-- `IsOptimized ()`. -/
def IsOptimized : Bool := false

/-- `GetSeed ()`. -/
def GetSeed (Seed : Nat) : Nat := Seed

end IDWithStringFalse

/-- A mixing function under which names of the same length and seed collide: the
length of the name added to the seed. -/
def lengthHash (name : List Char) (seed : Nat) : HashVal := name.length + seed

/-- A mixing function that ignores the name and returns the seed, under which every
name collides with the empty string. -/
def seedHash (_name : List Char) (seed : Nat) : HashVal := seed

/-! ## Memory manager (`VMemoryManager.h`) -/

/-- Modelled from the spec: `EMemoryType`, the memory properties that a request
asks for (device-local, host-visible, host-coherent, lazily-allocated). The type
is declared outside `src/`. -/
inductive EMemoryType
  | DeviceLocal
  | HostVisible
  | HostCoherent
  | LazilyAllocated
deriving DecidableEq

/-- Modelled from the spec: `MemoryDesc`, the memory-requirements descriptor of a
request: the desired memory type, the size and the alignment. The type is declared
outside `src/`. -/
structure MemoryDesc where
  type : EMemoryType
  size : Nat
  alignment : Nat
deriving DecidableEq

/-- Modelled from the spec: `Storage_t`, the opaque payload that an allocator
writes on success (`VMemoryObj::Storage_t`, outside `src/`). -/
abbrev Storage_t := Nat

/-- `VMemoryManager::IMemoryAllocator`, the interface of an allocator strategy. An
allocation returns the storage written to its `OUT` argument when it succeeds and
nothing when it fails. -/
structure IMemoryAllocator where
  IsSupported : EMemoryType → Bool
  AllocForImage : Nat → MemoryDesc → Option Storage_t
  AllocForBuffer : Nat → MemoryDesc → Option Storage_t
  Dealloc : Storage_t → Bool

/-- `VMemoryManager`: the member `_allocators`, a `FixedArray` of at most 16
allocators in the order of their registration. -/
structure VMemoryManager where
  _allocators : List IMemoryAllocator

/-- What an allocation request did: the positions of the allocators whose
allocation was invoked, in the order of the calls, and, on success, the position
of the allocator that served the request with the storage it wrote. -/
structure AllocOutcome where
  invoked : List Nat
  result : Option (Nat × Storage_t)
deriving DecidableEq

/-- Modelled from the spec: the routing of an allocation request (the bodies of
`AllocateForImage` and `AllocateForBuffer` are outside `src/`): the manager goes
through the strategies in registration order and tries the first whose
`IsSupported` accepts the requested type; when the allocation of that strategy
fails it falls through to the next supporting strategy, and it reports a failure
when no strategy is left. `call` is the allocation invoked on a strategy and
`index` the position of the head of the list. -/
def VMemoryManager.route (call : IMemoryAllocator → Option Storage_t) (type : EMemoryType) :
    Nat → List IMemoryAllocator → AllocOutcome
  | _, [] => { invoked := [], result := none }
  | index, alloc :: rest =>
      if alloc.IsSupported type then
        match call alloc with
        | some data => { invoked := [index], result := some (index, data) }
        | none =>
            { invoked := index :: (route call type (index + 1) rest).invoked
              result := (route call type (index + 1) rest).result }
      else route call type (index + 1) rest

/-- Modelled from the spec: `AllocateForImage (image, desc, OUT data)`. -/
def VMemoryManager.AllocateForImage (m : VMemoryManager) (image : Nat) (desc : MemoryDesc) :
    AllocOutcome :=
  VMemoryManager.route (fun alloc => alloc.AllocForImage image desc) desc.type 0 m._allocators

/-- Modelled from the spec: `AllocateForBuffer (buffer, desc, OUT data)`. -/
def VMemoryManager.AllocateForBuffer (m : VMemoryManager) (buffer : Nat) (desc : MemoryDesc) :
    AllocOutcome :=
  VMemoryManager.route (fun alloc => alloc.AllocForBuffer buffer desc) desc.type 0
    m._allocators

/-- The strategy of the scenario that supports device-local memory only; its
allocations write the storage 100. -/
def dedicatedAllocator : IMemoryAllocator :=
  { IsSupported := fun t => decide (t = EMemoryType.DeviceLocal)
    AllocForImage := fun _ _ => some 100
    AllocForBuffer := fun _ _ => some 100
    Dealloc := fun _ => true }

/-- The strategy of the scenario that supports host-visible memory only; its
allocations write the storage 200. -/
def hostOnlyAllocator : IMemoryAllocator :=
  { IsSupported := fun t => decide (t = EMemoryType.HostVisible)
    AllocForImage := fun _ _ => some 200
    AllocForBuffer := fun _ _ => some 200
    Dealloc := fun _ => true }

/-- The manager of the scenario: `Dedicated` registered first, `HostOnly` second. -/
def scenarioMemoryManager : VMemoryManager :=
  { _allocators := [dedicatedAllocator, hostOnlyAllocator] }

/-- No allocator registered before the position `j` supports the type. -/
def noneSupportsBefore (allocs : List IMemoryAllocator) (type : EMemoryType) (j : Nat) : Bool :=
  (allocs.take j).all fun b => !b.IsSupported type

/-- What the claim on the routing asks of the outcome `o` of a request for the
memory type `type`, served by the allocators `allocs` through the allocation
`call`: only allocators that support the type are invoked; they are invoked in
registration order; the first allocator invoked is the first that supports the
type, and it serves the request when its allocation succeeds; no allocator is
invoked and the request fails when none supports the type; and a request that
succeeds was served by the last allocator invoked, which supports the type. -/
def RoutedInRegistrationOrder (allocs : List IMemoryAllocator) (type : EMemoryType)
    (call : IMemoryAllocator → Option Storage_t) (o : AllocOutcome) : Prop :=
  (∀ n ∈ o.invoked, ∃ a, allocs[n]? = some a ∧ a.IsSupported type = true) ∧
  o.invoked.Pairwise (fun a b => a < b) ∧
  (∀ j a, allocs[j]? = some a → a.IsSupported type = true →
    noneSupportsBefore allocs type j = true →
    o.invoked.head? = some j ∧
    ∀ data, call a = some data → o = { invoked := [j], result := some (j, data) }) ∧
  ((∀ a ∈ allocs, a.IsSupported type = false) → o = { invoked := [], result := none }) ∧
  (∀ k data, o.result = some (k, data) →
    o.invoked.getLast? = some k ∧
    ∃ a, allocs[k]? = some a ∧ a.IsSupported type = true ∧ call a = some data)

theorem ResourceID.indexMask_eq : ResourceID._IndexMask = 2 ^ 16 - 1 := by decide

theorem ResourceID.pack_eq (i g : Nat) (hi : i < 2 ^ 16) (hg : g < 2 ^ 16) :
    (ResourceID.ofIndex i g)._value = i + g * 2 ^ 16 := by
  have h1 : g <<< 16 < 2 ^ 32 := by rw [Nat.shiftLeft_eq]; omega
  show i ||| ((g <<< 16) % 2 ^ 32) = i + g * 2 ^ 16
  rw [Nat.mod_eq_of_lt h1, Nat.lor_comm, Nat.shiftLeft_eq, Nat.mul_comm g,
    ← Nat.mul_add_lt_is_or hi]
  omega

theorem ResourceID.index_eq_mod (r : ResourceID) : r.Index = r._value % 2 ^ 16 := by
  show (r._value &&& ResourceID._IndexMask) % 2 ^ 16 = _
  rw [ResourceID.indexMask_eq, Nat.and_pow_two_sub_one_eq_mod]
  exact Nat.mod_mod _ _

theorem ResourceID.instanceID_eq_div (r : ResourceID) :
    r.InstanceID = r._value / 2 ^ 16 % 2 ^ 16 := by
  show (r._value >>> 16) % 2 ^ 16 = _
  rw [Nat.shiftRight_eq_div_pow]

/-! ## Claims C1 and C2 -/

/-- C1: for 16-bit `i` and `g`, `ResourceID(i, g)` stores `i + g * 2^16`, and
`Index()` and `InstanceID()` give `i` and `g` back; for every 32-bit `v`,
rebuilding an identity from the index and generation of `ResourceID(v)` yields
the data `v` again. -/
theorem C1_pack_unpack :
    (∀ i g : Nat, i < 2 ^ 16 → g < 2 ^ 16 →
      (ResourceID.ofIndex i g).Data = i + g * 2 ^ 16 ∧
      (ResourceID.ofIndex i g).Index = i ∧
      (ResourceID.ofIndex i g).InstanceID = g) ∧
    (∀ v : Nat, v < 2 ^ 32 →
      (ResourceID.ofIndex (ResourceID.ofData v).Index
        (ResourceID.ofData v).InstanceID).Data = v) := by
  refine ⟨fun i g hi hg => ?_, fun v hv => ?_⟩
  · have hp := ResourceID.pack_eq i g hi hg
    refine ⟨hp, ?_, ?_⟩
    · rw [ResourceID.index_eq_mod, hp]; omega
    · rw [ResourceID.instanceID_eq_div, hp]; omega
  · have hi : (ResourceID.ofData v).Index < 2 ^ 16 := by
      rw [ResourceID.index_eq_mod]; exact Nat.mod_lt _ (by norm_num)
    have hg : (ResourceID.ofData v).InstanceID < 2 ^ 16 := by
      rw [ResourceID.instanceID_eq_div]; exact Nat.mod_lt _ (by norm_num)
    show (ResourceID.ofIndex _ _)._value = v
    rw [ResourceID.pack_eq _ _ hi hg, ResourceID.index_eq_mod, ResourceID.instanceID_eq_div]
    show v % 2 ^ 16 + v / 2 ^ 16 % 2 ^ 16 * 2 ^ 16 = v
    omega

/-- Witness of C1: the pair `(3, 1)` and the value `0x00010003`. -/
theorem C1_pack_unpack_witness :
    ((ResourceID.ofIndex 3 1).Data = 3 + 1 * 2 ^ 16 ∧
      (ResourceID.ofIndex 3 1).Index = 3 ∧ (ResourceID.ofIndex 3 1).InstanceID = 1) ∧
    (ResourceID.ofIndex (ResourceID.ofData 0x00010003).Index
      (ResourceID.ofData 0x00010003).InstanceID).Data = 0x00010003 :=
  ⟨C1_pack_unpack.1 3 1 (by decide) (by decide), C1_pack_unpack.2 0x00010003 (by decide)⟩

/-- C2: `IsValid()` holds exactly when the packed value is not `0xFFFFFFFF`; the
default identity is invalid; an identity built from a 16-bit pair is valid
exactly when the pair is not `(0xFFFF, 0xFFFF)`; and the `bool` conversion
agrees with `IsValid()`. -/
theorem C2_isValid_iff_not_sentinel :
    (∀ r : ResourceID, r.IsValid = true ↔ r._value ≠ 0xFFFFFFFF) ∧
    ResourceID.Default.IsValid = false ∧
    (∀ i g : Nat, i < 2 ^ 16 → g < 2 ^ 16 →
      ((ResourceID.ofIndex i g).IsValid = true ↔ (i, g) ≠ (0xFFFF, 0xFFFF))) ∧
    (∀ r : ResourceID, r.toBool = r.IsValid) := by
  refine ⟨fun r => ?_, by decide, fun i g hi hg => ?_, fun _ => rfl⟩
  · simp [ResourceID.IsValid, UMax]
  · have hp := ResourceID.pack_eq i g hi hg
    simp only [ResourceID.IsValid, UMax, hp, bne_iff_ne, ne_eq, Prod.mk.injEq]
    omega

/-- Witness of C2: the pair `(0xFFFF, 0xFFFE)` is not the sentinel pair. -/
theorem C2_isValid_iff_not_sentinel_witness :
    (ResourceID.ofIndex 0xFFFF 0xFFFE).IsValid = true ↔
      ((0xFFFF, 0xFFFE) : Nat × Nat) ≠ (0xFFFF, 0xFFFF) :=
  C2_isValid_iff_not_sentinel.2.2.1 0xFFFF 0xFFFE (by decide) (by decide)

/-! ## Lemmas on the pools of the manager -/

namespace VResourceManager

theorem getPool_setPool_same (m : VResourceManager) (k : EResourceKind) (p : Pool) :
    (m.setResourcePool k p)._GetResourcePool k = p := by
  cases k <;> rfl

theorem getPool_setPool_ne (m : VResourceManager) {k k' : EResourceKind} (p : Pool)
    (h : k ≠ k') : (m.setResourcePool k p)._GetResourcePool k' = m._GetResourcePool k' := by
  cases k <;> cases k' <;> first | rfl | exact absurd rfl h

theorem setPool_readyToDelete (m : VResourceManager) (k : EResourceKind) (p : Pool) :
    (m.setResourcePool k p)._readyToDelete = m._readyToDelete := by
  cases k <;> rfl

theorem setPool_unassignIDs (m : VResourceManager) (k : EResourceKind) (p : Pool) :
    (m.setResourcePool k p)._unassignIDs = m._unassignIDs := by
  cases k <;> rfl

theorem setPool_trace (m : VResourceManager) (k : EResourceKind) (p : Pool) :
    (m.setResourcePool k p).trace = m.trace := by
  cases k <;> rfl

theorem setPool_device (m : VResourceManager) (k : EResourceKind) (p : Pool) :
    (m.setResourcePool k p)._device = m._device := by
  cases k <;> rfl

/-! ## Lemmas on the drain of the deferred-destroy queue -/

theorem dispatch_eq_expectedEvent (dev : Nat) (entry : VkDebugReportObjectTypeEXT × Nat) :
    _DeleteResources.dispatch dev entry = expectedEvent dev entry := by
  obtain ⟨tag, handle⟩ := entry
  cases tag <;> rfl

theorem deleteLoop_eq (dev : Nat) (q : List (VkDebugReportObjectTypeEXT × Nat))
    (m : VResourceManager) :
    q.foldl (fun acc pair =>
        { acc with trace := acc.trace ++ [_DeleteResources.dispatch dev pair] }) m =
      { m with trace := m.trace ++ q.map (_DeleteResources.dispatch dev) } := by
  induction q generalizing m with
  | nil => simp
  | cons e q ih => simp [List.foldl_cons, ih]

theorem deleteResources_eq (m : VResourceManager) :
    m._DeleteResources =
      { m with
        trace := m.trace ++ m._readyToDelete.map (expectedEvent m._device)
        _readyToDelete := [] } := by
  unfold _DeleteResources
  simp only [deleteLoop_eq]
  have h : _DeleteResources.dispatch m._device = expectedEvent m._device :=
    funext (dispatch_eq_expectedEvent m._device)
  rw [h]

end VResourceManager
namespace VResourceManager

/-! ## Lemmas on the drain of the unassignment queue -/

theorem unassignResource_readyToDelete (m : VResourceManager) (vid : UntypedResourceID) :
    (m._UnassignResource vid)._readyToDelete = m._readyToDelete := by
  simp [_UnassignResource, setPool_readyToDelete]

theorem unassignResource_unassignIDs (m : VResourceManager) (vid : UntypedResourceID) :
    (m._UnassignResource vid)._unassignIDs = m._unassignIDs := by
  simp [_UnassignResource, setPool_unassignIDs]

theorem unassignResource_device (m : VResourceManager) (vid : UntypedResourceID) :
    (m._UnassignResource vid)._device = m._device := by
  simp [_UnassignResource, setPool_device]

theorem unassignResource_trace (m : VResourceManager) (vid : UntypedResourceID) :
    (m._UnassignResource vid).trace = m.trace ++ [unassignEvent vid] := rfl

theorem getPool_withTrace (m : VResourceManager) (t : List Event) (k : EResourceKind) :
    ({ m with trace := t } : VResourceManager)._GetResourcePool k = m._GetResourcePool k := by
  cases k <;> rfl

theorem unassignResource_getPool (m : VResourceManager) (vid : UntypedResourceID)
    (k : EResourceKind) :
    (m._UnassignResource vid)._GetResourcePool k =
      if vid.kind = k then (m._GetResourcePool k).Unassign vid.id.Index
      else m._GetResourcePool k := by
  unfold _UnassignResource
  rw [getPool_withTrace]
  by_cases h : vid.kind = k
  · rw [if_pos h, ← h, getPool_setPool_same]
  · rw [if_neg h, getPool_setPool_ne _ _ h]

theorem unassignLoop_readyToDelete (q : List UntypedResourceID) (m : VResourceManager) :
    (q.foldl _UnassignResource m)._readyToDelete = m._readyToDelete := by
  induction q generalizing m with
  | nil => rfl
  | cons vid q ih => rw [List.foldl_cons, ih, unassignResource_readyToDelete]

theorem unassignLoop_unassignIDs (q : List UntypedResourceID) (m : VResourceManager) :
    (q.foldl _UnassignResource m)._unassignIDs = m._unassignIDs := by
  induction q generalizing m with
  | nil => rfl
  | cons vid q ih => rw [List.foldl_cons, ih, unassignResource_unassignIDs]

theorem unassignLoop_device (q : List UntypedResourceID) (m : VResourceManager) :
    (q.foldl _UnassignResource m)._device = m._device := by
  induction q generalizing m with
  | nil => rfl
  | cons vid q ih => rw [List.foldl_cons, ih, unassignResource_device]

theorem unassignLoop_trace (q : List UntypedResourceID) (m : VResourceManager) :
    (q.foldl _UnassignResource m).trace = m.trace ++ q.map unassignEvent := by
  induction q generalizing m with
  | nil => simp
  | cons vid q ih =>
      rw [List.foldl_cons, ih, unassignResource_trace, List.map_cons, List.append_assoc]
      rfl

theorem unassignLoop_getPool (q : List UntypedResourceID) (m : VResourceManager)
    (k : EResourceKind) :
    (q.foldl _UnassignResource m)._GetResourcePool k =
      (queuedIndices k q).foldl Pool.Unassign (m._GetResourcePool k) := by
  induction q generalizing m with
  | nil => rfl
  | cons vid q ih =>
      rw [List.foldl_cons, ih, unassignResource_getPool]
      by_cases h : vid.kind = k
      · simp [queuedIndices, List.filter_cons, h]
      · simp [queuedIndices, List.filter_cons, h]

/-! ## Lemmas on `OnEndFrame` -/

theorem onEndFrame_trace (m : VResourceManager) :
    m.OnEndFrame.trace =
      m.trace ++ m._readyToDelete.map (expectedEvent m._device) ++
        m._unassignIDs.map unassignEvent := by
  unfold OnEndFrame _UnassignResourceIDs
  simp only [unassignLoop_trace, deleteResources_eq]

theorem onEndFrame_readyToDelete (m : VResourceManager) : m.OnEndFrame._readyToDelete = [] := by
  unfold OnEndFrame _UnassignResourceIDs
  simp only [unassignLoop_readyToDelete, deleteResources_eq]

theorem onEndFrame_unassignIDs (m : VResourceManager) : m.OnEndFrame._unassignIDs = [] := rfl

theorem onEndFrame_device (m : VResourceManager) : m.OnEndFrame._device = m._device := by
  unfold OnEndFrame _UnassignResourceIDs
  simp only [unassignLoop_device, deleteResources_eq]

theorem getPool_withQueues (m : VResourceManager) (t : List Event)
    (q : List (VkDebugReportObjectTypeEXT × Nat)) (u : List UntypedResourceID)
    (k : EResourceKind) :
    ({ m with trace := t, _readyToDelete := q, _unassignIDs := u } :
      VResourceManager)._GetResourcePool k = m._GetResourcePool k := by
  cases k <;> rfl

theorem onEndFrame_getPool (m : VResourceManager) (k : EResourceKind) :
    m.OnEndFrame._GetResourcePool k =
      (queuedIndices k m._unassignIDs).foldl Pool.Unassign (m._GetResourcePool k) := by
  have h1 : m.OnEndFrame._GetResourcePool k =
      (m._DeleteResources._unassignIDs.foldl _UnassignResource
        m._DeleteResources)._GetResourcePool k := by
    cases k <;> rfl
  rw [h1, unassignLoop_getPool, deleteResources_eq]
  cases k <;> rfl

theorem onEndFrame_of_empty (m : VResourceManager) (h1 : m._readyToDelete = [])
    (h2 : m._unassignIDs = []) : m.OnEndFrame = m := by
  cases m
  simp only at h1 h2
  subst h1 h2
  rfl

/-! ## Lemmas on native calls -/

end VResourceManager

theorem nativeCalls_append (a b : List Event) :
    nativeCalls (a ++ b) = nativeCalls a ++ nativeCalls b := by
  simp [nativeCalls]

theorem nativeCalls_expected (dev : Nat) (q : List (VkDebugReportObjectTypeEXT × Nat)) :
    nativeCalls (q.map (expectedEvent dev)) = q.filterMap (destroyCallOf dev) := by
  induction q with
  | nil => rfl
  | cons e q ih =>
      have ih' : List.filterMap (fun e => match e with | Event.native c => some c | _ => none)
          (q.map (expectedEvent dev)) = q.filterMap (destroyCallOf dev) := ih
      cases h : destroyCallOf dev e <;>
        simp [nativeCalls, expectedEvent, List.filterMap_cons, h, ih']

theorem nativeCalls_unassign (q : List UntypedResourceID) :
    nativeCalls (q.map unassignEvent) = [] := by
  induction q with
  | nil => rfl
  | cons e q ih =>
      have ih' : List.filterMap (fun e => match e with | Event.native c => some c | _ => none)
          (q.map unassignEvent) = [] := ih
      simp [nativeCalls, unassignEvent, List.filterMap_cons, ih']

theorem onEndFrame_nativeCalls (m : VResourceManager) :
    nativeCalls m.OnEndFrame.trace = nativeCalls m.trace ++ pendingCalls m := by
  rw [VResourceManager.onEndFrame_trace, nativeCalls_append, nativeCalls_append,
    nativeCalls_expected, nativeCalls_unassign, List.append_nil]
  rfl

theorem runOps_conservation (ops : List FrameOp) (m : VResourceManager) :
    (runOps ops m)._device = m._device ∧
    nativeCalls (runOps ops m).trace ++ pendingCalls (runOps ops m) =
      nativeCalls m.trace ++ pendingCalls m ++ (enqueued ops).filterMap (destroyCallOf m._device) := by
  induction ops generalizing m with
  | nil => simp [runOps, enqueued]
  | cons op ops ih =>
      have h := ih (FrameOp.apply m op)
      have hrun : runOps (op :: ops) m = runOps ops (FrameOp.apply m op) := rfl
      rw [hrun]
      cases op with
      | enqueue entry =>
          have hd : (FrameOp.apply m (FrameOp.enqueue entry))._device = m._device := rfl
          have ht : (FrameOp.apply m (FrameOp.enqueue entry)).trace = m.trace := rfl
          have hp : pendingCalls (FrameOp.apply m (FrameOp.enqueue entry)) =
              pendingCalls m ++ [entry].filterMap (destroyCallOf m._device) := by
            simp [pendingCalls, FrameOp.apply, List.filterMap_append]
          rw [hd, ht, hp] at h
          refine ⟨h.1, ?_⟩
          rw [h.2]
          simp [enqueued, List.filterMap_cons, List.append_assoc]
          cases destroyCallOf m._device entry <;> simp
      | endFrame =>
          have hd : (FrameOp.apply m FrameOp.endFrame)._device = m._device :=
            VResourceManager.onEndFrame_device m
          have ht : nativeCalls (FrameOp.apply m FrameOp.endFrame).trace =
              nativeCalls m.trace ++ pendingCalls m := onEndFrame_nativeCalls m
          have hp : pendingCalls (FrameOp.apply m FrameOp.endFrame) = [] := by
            simp [pendingCalls, FrameOp.apply, VResourceManager.onEndFrame_readyToDelete]
          rw [hd, ht, hp] at h
          refine ⟨h.1, ?_⟩
          rw [h.2]
          simp [enqueued, List.filterMap_cons]
/-! ## Lemmas on pool lookup -/

theorem Pool.get_eq_none_of_generation_ne (p : Pool) (id : ResourceID) (r : ResourceBase)
    (h : p.slots[id.Index]? = some r) (hne : r.instanceId ≠ id.InstanceID) :
    p.Get id = none := by
  simp [Pool.Get, h, hne]

theorem ResourceID.instanceID_lt (id : ResourceID) : id.InstanceID < 2 ^ 16 :=
  Nat.mod_lt _ (by norm_num)

theorem Pool.unassign_getElem?_self (p : Pool) (i : Nat) (r : ResourceBase)
    (h : p.slots[i]? = some r) :
    (p.Unassign i).slots[i]? = some { r with instanceId := (r.instanceId + 1) % 2 ^ 16 } := by
  have hlt : i < p.slots.length := by
    by_contra hc
    rw [List.getElem?_eq_none (Nat.le_of_not_lt hc)] at h
    cases h
  simp [Pool.Unassign, h, List.getElem?_set, hlt]

/-! ## Claims C3 to C7 -/

/-- C3: lookup of an identity whose generation differs from the current
generation of the slot at its index fails, so it never yields the slot's current
occupant; an identity that resolves stops resolving once its slot is unassigned;
and in the image-reuse scenario A is `(3, 0)`, B is `(3, 1)`, looking up A fails
and looking up B succeeds. -/
theorem C3_stale_generation_lookup_fails :
    (∀ (p : Pool) (id : ResourceID) (r : ResourceBase),
      p.slots[id.Index]? = some r → r.instanceId ≠ id.InstanceID →
      p.Get id = none ∧ p.Get id ≠ some r.data) ∧
    (∀ (p : Pool) (id : ResourceID) (r : ResourceBase),
      p.slots[id.Index]? = some r → r.instanceId = id.InstanceID →
      (p.Unassign id.Index).Get id = none) ∧
    (∃ a b m, imageReuseScenario = some (a, b, m) ∧
      a.Index = 3 ∧ a.InstanceID = 0 ∧ b.Index = 3 ∧ b.InstanceID = 1 ∧
      m.GetImage a = none ∧ m.GetImage b = some 14) := by
  refine ⟨fun p id r h hne => ?_, fun p id r h heq => ?_, ?_⟩
  · have hn := Pool.get_eq_none_of_generation_ne p id r h hne
    exact ⟨hn, by rw [hn]; exact fun hc => Option.noConfusion hc⟩
  · have hs := Pool.unassign_getElem?_self p id.Index r h
    refine Pool.get_eq_none_of_generation_ne _ id _ hs ?_
    have hlt := ResourceID.instanceID_lt id
    show (r.instanceId + 1) % 2 ^ 16 ≠ id.InstanceID
    rw [heq]
    omega
  · exact ⟨_, _, _, rfl, by decide, by decide, by decide, by decide, by decide, by decide⟩

/-- Witness of C3: the pool holding one slot of generation 1, looked up with the
identity `(0, 0)`. -/
theorem C3_stale_generation_lookup_fails_witness :
    (Pool.mk [⟨7, EState.Created, 1, none⟩] []).Get (ResourceID.ofIndex 0 0) = none ∧
    (Pool.mk [⟨7, EState.Created, 1, none⟩] []).Get (ResourceID.ofIndex 0 0) ≠ some 7 :=
  C3_stale_generation_lookup_fails.1 (Pool.mk [⟨7, EState.Created, 1, none⟩] [])
    (ResourceID.ofIndex 0 0) ⟨7, EState.Created, 1, none⟩ (by decide) (by decide)

set_option maxRecDepth 100000 in
/-- C4: `OnEndFrame` visits every entry of the deferred-destroy queue once, in
queue order: the events it adds are the expected event of each entry in turn
(then the unassignments), the native calls it adds are exactly the destroy calls
of the entries with a supported tag, each the destroy function of the tag applied
to the handle of the entry, and the queue is empty afterwards; a queue of 300
entries on a manager that reserved 256 is drained whole. -/
theorem C4_onEndFrame_drains_whole_queue :
    (∀ m : VResourceManager,
      m.OnEndFrame.trace =
        m.trace ++ m._readyToDelete.map (expectedEvent m._device) ++
          m._unassignIDs.map unassignEvent ∧
      nativeCalls m.OnEndFrame.trace =
        nativeCalls m.trace ++ m._readyToDelete.filterMap (destroyCallOf m._device) ∧
      m.OnEndFrame._readyToDelete = []) ∧
    (∀ (dev handle : Nat) (tag : VkDebugReportObjectTypeEXT) (f : Nat → Nat → NativeCall),
      destroyFunctionOf tag = some f →
      VResourceManager._DeleteResources.dispatch dev (tag, handle) =
        Event.native (f dev handle)) ∧
    (longQueueScenario._readyToDeleteReserved = 256 ∧
      longQueueScenario._readyToDelete.length = 300 ∧
      nativeCalls longQueueScenario.OnEndFrame.trace =
        (List.range 300).map (fun i => NativeCall.vkDestroyImage 1 (i + 1)) ∧
      longQueueScenario.OnEndFrame._readyToDelete = []) := by
  refine ⟨fun m => ⟨VResourceManager.onEndFrame_trace m, onEndFrame_nativeCalls m,
    VResourceManager.onEndFrame_readyToDelete m⟩, fun dev handle tag f h => ?_, ?_⟩
  · rw [VResourceManager.dispatch_eq_expectedEvent]
    simp [expectedEvent, destroyCallOf, h]
  · refine ⟨rfl, by decide, ?_, VResourceManager.onEndFrame_readyToDelete _⟩
    rw [onEndFrame_nativeCalls]
    decide

/-- Witness of C4: the tag of samplers is dispatched to `vkDestroySampler`. -/
theorem C4_onEndFrame_drains_whole_queue_witness :
    VResourceManager._DeleteResources.dispatch 1 (VK_DEBUG_REPORT_OBJECT_TYPE_SAMPLER_EXT, 5) =
      Event.native (NativeCall.vkDestroySampler 1 5) :=
  C4_onEndFrame_drains_whole_queue.2.1 1 5 VK_DEBUG_REPORT_OBJECT_TYPE_SAMPLER_EXT
    NativeCall.vkDestroySampler rfl

/-- C5: an entry with an unrecognised kind tag, wherever it stands in the
deferred-destroy queue, gets no native destroy call, only the error log; the
entries before and after it get their events as usual, the native calls are those
of the queue without that entry, and the queue ends empty. -/
theorem C5_unknown_tag_is_skipped (m : VResourceManager)
    (pre post : List (VkDebugReportObjectTypeEXT × Nat))
    (tag : VkDebugReportObjectTypeEXT) (handle : Nat)
    (hq : m._readyToDelete = pre ++ (tag, handle) :: post)
    (ht : isSupported tag = false) :
    m._DeleteResources.trace =
      m.trace ++ pre.map (expectedEvent m._device) ++
        Event.logE :: post.map (expectedEvent m._device) ∧
    nativeCalls m._DeleteResources.trace =
      nativeCalls ({ m with _readyToDelete := pre ++ post } :
        VResourceManager)._DeleteResources.trace ∧
    nativeCalls m.OnEndFrame.trace =
      nativeCalls ({ m with _readyToDelete := pre ++ post } :
        VResourceManager).OnEndFrame.trace ∧
    m._DeleteResources._readyToDelete = [] ∧
    m.OnEndFrame._readyToDelete = [] := by
  have hnone : destroyCallOf m._device (tag, handle) = none := by
    unfold isSupported at ht
    cases hd : destroyFunctionOf tag with
    | none => simp [destroyCallOf, hd]
    | some f => rw [hd] at ht; cases ht
  have hev : expectedEvent m._device (tag, handle) = Event.logE := by
    simp [expectedEvent, hnone]
  refine ⟨?_, ?_, ?_, ?_, VResourceManager.onEndFrame_readyToDelete m⟩
  · rw [VResourceManager.deleteResources_eq]
    simp [hq, hev]
  · rw [VResourceManager.deleteResources_eq, VResourceManager.deleteResources_eq]
    simp only [nativeCalls_append, nativeCalls_expected, hq, List.filterMap_append,
      List.filterMap_cons, hnone]
  · rw [onEndFrame_nativeCalls, onEndFrame_nativeCalls]
    simp only [pendingCalls, hq, List.filterMap_append, List.filterMap_cons, hnone]
  · rw [VResourceManager.deleteResources_eq]

/-- Witness of C5: a shader-module entry between a fence and a buffer. -/
theorem C5_unknown_tag_is_skipped_witness :
    ({ VResourceManager.new 1 with
        _readyToDelete :=
          [(VK_DEBUG_REPORT_OBJECT_TYPE_FENCE_EXT, 3),
           (VK_DEBUG_REPORT_OBJECT_TYPE_SHADER_MODULE_EXT, 4),
           (VK_DEBUG_REPORT_OBJECT_TYPE_BUFFER_EXT, 5)] } :
      VResourceManager)._DeleteResources.trace =
      [Event.native (NativeCall.vkDestroyFence 1 3), Event.logE,
       Event.native (NativeCall.vkDestroyBuffer 1 5)] :=
  (C5_unknown_tag_is_skipped
    { VResourceManager.new 1 with
        _readyToDelete :=
          [(VK_DEBUG_REPORT_OBJECT_TYPE_FENCE_EXT, 3),
           (VK_DEBUG_REPORT_OBJECT_TYPE_SHADER_MODULE_EXT, 4),
           (VK_DEBUG_REPORT_OBJECT_TYPE_BUFFER_EXT, 5)] }
    [(VK_DEBUG_REPORT_OBJECT_TYPE_FENCE_EXT, 3)] [(VK_DEBUG_REPORT_OBJECT_TYPE_BUFFER_EXT, 5)]
    VK_DEBUG_REPORT_OBJECT_TYPE_SHADER_MODULE_EXT 4 rfl (by decide)).1

/-- C6: over any run of enqueues and `OnEndFrame` calls, the destroy calls issued
so far followed by those still owed to the waiting entries are exactly the destroy
calls of the entries placed on the queue, one per entry at most; and an
`OnEndFrame` that directly follows an `OnEndFrame` changes nothing, so it issues
no destroy call and no unassignment. -/
theorem C6_destroyed_at_most_once :
    (∀ (ops : List FrameOp) (m : VResourceManager),
      nativeCalls (runOps ops m).trace ++ pendingCalls (runOps ops m) =
        nativeCalls m.trace ++
          (m._readyToDelete ++ enqueued ops).filterMap (destroyCallOf m._device)) ∧
    (∀ (ops : List FrameOp) (m : VResourceManager),
      (nativeCalls (runOps ops m).trace).length ≤
        (nativeCalls m.trace).length + (m._readyToDelete ++ enqueued ops).length) ∧
    (∀ m : VResourceManager, m.OnEndFrame.OnEndFrame = m.OnEndFrame) ∧
    (∀ m : VResourceManager, m.OnEndFrame.OnEndFrame.trace = m.OnEndFrame.trace) := by
  have hcons : ∀ (ops : List FrameOp) (m : VResourceManager),
      nativeCalls (runOps ops m).trace ++ pendingCalls (runOps ops m) =
        nativeCalls m.trace ++
          (m._readyToDelete ++ enqueued ops).filterMap (destroyCallOf m._device) := by
    intro ops m
    rw [(runOps_conservation ops m).2, List.filterMap_append, List.append_assoc]
    rfl
  have hidem : ∀ m : VResourceManager, m.OnEndFrame.OnEndFrame = m.OnEndFrame := fun m =>
    VResourceManager.onEndFrame_of_empty _ (VResourceManager.onEndFrame_readyToDelete m)
      (VResourceManager.onEndFrame_unassignIDs m)
  refine ⟨hcons, fun ops m => ?_, hidem, fun m => by rw [hidem]⟩
  have h := congrArg List.length (hcons ops m)
  rw [List.length_append, List.length_append] at h
  have hle := List.length_filterMap_le (destroyCallOf m._device) (m._readyToDelete ++ enqueued ops)
  omega

/-- C7: `OnEndFrame` drains the deferred-destroy queue first, which touches
neither the pools nor the unassignment queue, and the unassignment queue second:
the unassignments come after all destroy events, one per queued identity in queue
order, the pool of each kind has had exactly the queued indices of that kind
unassigned in queue order, and the unassignment queue is empty afterwards. -/
theorem C7_unassignment_after_destruction (m : VResourceManager) :
    m.OnEndFrame = m._DeleteResources._UnassignResourceIDs ∧
    m._DeleteResources._unassignIDs = m._unassignIDs ∧
    (∀ k, m._DeleteResources._GetResourcePool k = m._GetResourcePool k) ∧
    m.OnEndFrame.trace =
      m._DeleteResources.trace ++ m._unassignIDs.map unassignEvent ∧
    m._DeleteResources.trace = m.trace ++ m._readyToDelete.map (expectedEvent m._device) ∧
    (∀ k, m.OnEndFrame._GetResourcePool k =
      (queuedIndices k m._unassignIDs).foldl Pool.Unassign (m._GetResourcePool k)) ∧
    m.OnEndFrame._unassignIDs = [] := by
  refine ⟨rfl, ?_, fun k => ?_, ?_, ?_, VResourceManager.onEndFrame_getPool m,
    VResourceManager.onEndFrame_unassignIDs m⟩
  · rw [VResourceManager.deleteResources_eq]
  · rw [VResourceManager.deleteResources_eq]; cases k <;> rfl
  · rw [VResourceManager.onEndFrame_trace, VResourceManager.deleteResources_eq]
  · rw [VResourceManager.deleteResources_eq]

/-! ## Lemmas on the flush of one cache -/

theorem getElem?_some_lt_length {α : Type} {l : List α} {n : Nat} {a : α}
    (h : l[n]? = some a) : n < l.length := by
  by_contra hc
  rw [List.getElem?_eq_none (Nat.le_of_not_lt hc)] at h
  cases h

theorem evictedBelow_getElem? (p : Pool) (n : Nat) (hn : n ≤ p.slots.length) :
    (p.evictedBelow n).slots[n]? = p.slots[n]? := by
  show ((p.slots.take n).map evictedSlot ++ p.slots.drop n)[n]? = _
  have hlen : ((p.slots.take n).map evictedSlot).length = n := by
    simp [List.length_take, hn]
  rw [List.getElem?_append_right (by omega), hlen, Nat.sub_self, List.getElem?_drop]
  rfl

theorem evictedBelow_set (p : Pool) (n : Nat) (r : ResourceBase) (h : p.slots[n]? = some r) :
    (p.evictedBelow n).slots.set n (evictedSlot r) = (p.evictedBelow (n + 1)).slots := by
  have hlt := getElem?_some_lt_length h
  have hr : p.slots[n] = r := by
    have := List.getElem?_eq_getElem hlt
    rw [h] at this
    exact (Option.some.inj this).symm
  show ((p.slots.take n).map evictedSlot ++ p.slots.drop n).set n (evictedSlot r) =
    (p.slots.take (n + 1)).map evictedSlot ++ p.slots.drop (n + 1)
  have hlen : ((p.slots.take n).map evictedSlot).length = n := by
    simp [List.length_take, Nat.le_of_lt hlt]
  rw [List.drop_eq_getElem_cons hlt, List.take_succ, h, hr]
  have hset := List.set_append_right (s := (p.slots.take n).map evictedSlot)
    (t := r :: p.slots.drop (n + 1)) n (evictedSlot r) (by omega)
  rw [hset, hlen, Nat.sub_self]
  simp

theorem evictedBelow_succ_of_initial (p : Pool) (n : Nat) (r : ResourceBase)
    (h : p.slots[n]? = some r) (hs : r.state = EState.Initial) :
    p.evictedBelow (n + 1) = p.evictedBelow n := by
  have hset := evictedBelow_set p n r h
  have hev : evictedSlot r = r := by simp [evictedSlot, hs]
  have hget : (p.evictedBelow n).slots[n]? = some r := by
    rw [evictedBelow_getElem? p n (Nat.le_of_lt (getElem?_some_lt_length h)), h]
  have hlive : p.isLive n = false := by simp [Pool.isLive, h, hs]
  have hslots : (p.evictedBelow (n + 1)).slots = (p.evictedBelow n).slots := by
    rw [← hset, hev]
    apply List.ext_getElem?
    intro j
    rw [List.getElem?_set]
    by_cases hj : n = j
    · subst hj
      simp [hget, getElem?_some_lt_length hget]
    · simp [hj]
  have hfree : (p.evictedBelow (n + 1)).free = (p.evictedBelow n).free := by
    show ((List.range (n + 1)).filter p.isLive).reverse ++ p.free =
      ((List.range n).filter p.isLive).reverse ++ p.free
    rw [List.range_succ, List.filter_append]
    simp [hlive]
  calc p.evictedBelow (n + 1)
      = ⟨(p.evictedBelow (n + 1)).slots, (p.evictedBelow (n + 1)).free⟩ := rfl
    _ = ⟨(p.evictedBelow n).slots, (p.evictedBelow n).free⟩ := by rw [hslots, hfree]
    _ = p.evictedBelow n := rfl

theorem liveIndices_succ_of_live (p : Pool) (n : Nat) (h : p.isLive n = true) :
    p.liveIndices (n + 1) = p.liveIndices n ++ [n] := by
  show (List.range (n + 1)).filter p.isLive = (List.range n).filter p.isLive ++ [n]
  rw [List.range_succ, List.filter_append]
  simp [h]

theorem liveIndices_succ_of_not_live (p : Pool) (n : Nat) (h : p.isLive n = false) :
    p.liveIndices (n + 1) = p.liveIndices n := by
  show (List.range (n + 1)).filter p.isLive = (List.range n).filter p.isLive
  rw [List.range_succ, List.filter_append]
  simp [h]

/-- The three pool calls of the loop body on a pool `q` whose slot `n` is `r`. -/
theorem Pool.evict_calls (q : Pool) (n : Nat) (r : ResourceBase) (h : q.slots[n]? = some r) :
    (((q.update n fun _ => { r with data := 0, state := EState.Initial }).RemoveFromCache
      n).Unassign n) =
      { slots := q.slots.set n
          { data := 0, state := EState.Initial, instanceId := (r.instanceId + 1) % 2 ^ 16,
            cacheKey := none }
        free := n :: q.free } := by
  have hlt := getElem?_some_lt_length h
  simp [Pool.update, Pool.RemoveFromCache, Pool.Unassign, h, List.getElem?_set, hlt,
    List.set_set]

namespace VResourceManager

theorem body_of_initial (k : EResourceKind) (m : VResourceManager) (i : Nat) (r : ResourceBase)
    (hi : i < 2 ^ 16) (h : (m._GetResourcePool k).slots[i]? = some r)
    (hs : r.state = EState.Initial) : _DestroyResourceCache.body k m i = m := by
  unfold _DestroyResourceCache.body
  simp only [Nat.mod_eq_of_lt hi, h, ResourceBase.GetState, hs, ne_eq, not_true_eq_false,
    if_false]

theorem body_of_live (k : EResourceKind) (m : VResourceManager) (i : Nat) (r : ResourceBase)
    (hi : i < 2 ^ 16) (h : (m._GetResourcePool k).slots[i]? = some r)
    (hs : r.state ≠ EState.Initial) :
    _DestroyResourceCache.body k m i =
      { m.setResourcePool k
          { slots := (m._GetResourcePool k).slots.set i (evictedSlot r)
            free := i :: (m._GetResourcePool k).free } with
        _readyToDelete := m._readyToDelete ++ [(k.objectType, r.data)]
        trace := m.trace ++
          [Event.destroy k i, Event.removeFromCache k i, Event.unassign k i] } := by
  have hev : evictedSlot r =
      { data := 0, state := EState.Initial, instanceId := (r.instanceId + 1) % 2 ^ 16,
        cacheKey := none } := by
    simp [evictedSlot, hs]
  unfold _DestroyResourceCache.body
  simp only [Nat.mod_eq_of_lt hi, h, ResourceBase.GetState, ne_eq, hs, not_false_eq_true,
    if_true, ResourceBase.Destroy]
  rw [Pool.evict_calls _ i r h, hev]
  cases k <;> rfl

theorem evictedBelow_getPool (k : EResourceKind) (m : VResourceManager) (n : Nat) :
    (m.evictedBelow k n)._GetResourcePool k = (m._GetResourcePool k).evictedBelow n := by
  cases k <;> rfl

theorem evictedBelow_zero (k : EResourceKind) (m : VResourceManager) :
    m.evictedBelow k 0 = m := by
  cases m
  cases k <;> simp [evictedBelow, Pool.evictedBelow, Pool.liveIndices, evictionEntries,
    evictionEvents, setResourcePool, _GetResourcePool]

theorem destroyLoop_eq (k : EResourceKind) (m : VResourceManager) (n : Nat)
    (hn : n ≤ (m._GetResourcePool k).size) (hsz : (m._GetResourcePool k).size ≤ 2 ^ 16) :
    (List.range n).foldl (_DestroyResourceCache.body k) m = m.evictedBelow k n := by
  induction n with
  | zero => simp [evictedBelow_zero]
  | succ n ih =>
      have hlt : n < (m._GetResourcePool k).slots.length := hn
      rw [List.range_succ, List.foldl_append, ih (Nat.le_of_lt hn)]
      simp only [List.foldl_cons, List.foldl_nil]
      obtain ⟨r, hr⟩ : ∃ r, (m._GetResourcePool k).slots[n]? = some r :=
        ⟨_, List.getElem?_eq_getElem hlt⟩
      have hget : ((m.evictedBelow k n)._GetResourcePool k).slots[n]? = some r := by
        rw [evictedBelow_getPool, evictedBelow_getElem? _ n (Nat.le_of_lt hlt), hr]
      have hi : n < 2 ^ 16 := Nat.lt_of_lt_of_le hn hsz
      by_cases hs : r.state = EState.Initial
      · rw [body_of_initial k _ n r hi hget hs]
        have hlive : (m._GetResourcePool k).isLive n = false := by simp [Pool.isLive, hr, hs]
        unfold evictedBelow
        rw [evictedBelow_succ_of_initial _ n r hr hs, liveIndices_succ_of_not_live _ n hlive]
      · rw [body_of_live k _ n r hi hget hs]
        have hlive : (m._GetResourcePool k).isLive n = true := by simp [Pool.isLive, hr, hs]
        have hpool : Pool.mk (((m.evictedBelow k n)._GetResourcePool k).slots.set n
              (evictedSlot r)) (n :: ((m.evictedBelow k n)._GetResourcePool k).free) =
            (m._GetResourcePool k).evictedBelow (n + 1) := by
          have hfree : n :: ((m._GetResourcePool k).evictedBelow n).free =
              ((m._GetResourcePool k).evictedBelow (n + 1)).free := by
            show n :: (((m._GetResourcePool k).liveIndices n).reverse ++
              (m._GetResourcePool k).free) =
              ((m._GetResourcePool k).liveIndices (n + 1)).reverse ++ (m._GetResourcePool k).free
            rw [liveIndices_succ_of_live _ n hlive]
            simp
          rw [evictedBelow_getPool, evictedBelow_set _ n r hr, hfree]
        have hhandle : (m._GetResourcePool k).handleAt n = r.data := by
          simp [Pool.handleAt, hr]
        rw [hpool]
        unfold evictedBelow
        rw [liveIndices_succ_of_live _ n hlive]
        simp only [evictionEntries, evictionEvents, List.map_append, List.flatMap_append,
          List.map_cons, List.map_nil, List.flatMap_cons, List.flatMap_nil, List.append_nil,
          hhandle, List.append_assoc]
        cases k <;> rfl

theorem destroyResourceCache_eq (k : EResourceKind) (m : VResourceManager)
    (hsz : (m._GetResourcePool k).size ≤ 2 ^ 16) :
    m._DestroyResourceCache k = m.evictedBelow k (m._GetResourcePool k).size :=
  destroyLoop_eq k m _ (Nat.le_refl _) hsz

end VResourceManager

namespace VResourceManager

/-! ## Lemmas on `OnDestroy` -/

theorem evictedBelow_getPool_ne (m : VResourceManager) {k k' : EResourceKind} (n : Nat)
    (h : k ≠ k') : (m.evictedBelow k n)._GetResourcePool k' = m._GetResourcePool k' := by
  cases k <;> cases k' <;> first | rfl | exact absurd rfl h

theorem evictedBelow_unassignIDs (m : VResourceManager) (k : EResourceKind) (n : Nat) :
    (m.evictedBelow k n)._unassignIDs = m._unassignIDs := by
  cases k <;> rfl

theorem evictedBelow_device (m : VResourceManager) (k : EResourceKind) (n : Nat) :
    (m.evictedBelow k n)._device = m._device := by
  cases k <;> rfl

/-- The manager after the flush of the three caches, before the final
`OnEndFrame`. -/
theorem flush_eq (m : VResourceManager)
    (hS : m._samplerCache.size ≤ 2 ^ 16) (hP : m._pplnLayoutCache.size ≤ 2 ^ 16)
    (hD : m._dsLayoutCache.size ≤ 2 ^ 16) :
    _DestroyResourceCache .DescriptorSetLayout
      (_DestroyResourceCache .PipelineLayout (_DestroyResourceCache .Sampler m)) =
      { m with
        _samplerCache := m._samplerCache.evictedBelow m._samplerCache.size
        _pplnLayoutCache := m._pplnLayoutCache.evictedBelow m._pplnLayoutCache.size
        _dsLayoutCache := m._dsLayoutCache.evictedBelow m._dsLayoutCache.size
        _readyToDelete := m._readyToDelete ++ flushEntries m
        trace := m.trace ++ flushEvents m } := by
  rw [destroyResourceCache_eq .Sampler m hS]
  rw [destroyResourceCache_eq .PipelineLayout
    (m.evictedBelow .Sampler (m._GetResourcePool .Sampler).size) hP]
  rw [destroyResourceCache_eq .DescriptorSetLayout
    ((m.evictedBelow .Sampler (m._GetResourcePool .Sampler).size).evictedBelow .PipelineLayout
      ((m.evictedBelow .Sampler (m._GetResourcePool .Sampler).size)._GetResourcePool
        .PipelineLayout).size) hD]
  simp [evictedBelow, flushEntries, flushEvents, cacheKinds, liveSlots, setResourcePool,
    _GetResourcePool, List.append_assoc]

theorem onDestroy_trace (m : VResourceManager)
    (hS : m._samplerCache.size ≤ 2 ^ 16) (hP : m._pplnLayoutCache.size ≤ 2 ^ 16)
    (hD : m._dsLayoutCache.size ≤ 2 ^ 16) :
    m.OnDestroy.trace =
      m.trace ++ flushEvents m ++
        (m._readyToDelete ++ flushEntries m).map (expectedEvent m._device) ++
        m._unassignIDs.map unassignEvent := by
  unfold OnDestroy
  rw [flush_eq m hS hP hD, onEndFrame_trace]

theorem onDestroy_getPool (m : VResourceManager)
    (hS : m._samplerCache.size ≤ 2 ^ 16) (hP : m._pplnLayoutCache.size ≤ 2 ^ 16)
    (hD : m._dsLayoutCache.size ≤ 2 ^ 16) (k : EResourceKind) (hk : k ∈ cacheKinds) :
    m.OnDestroy._GetResourcePool k =
      (queuedIndices k m._unassignIDs).foldl Pool.Unassign
        ((m._GetResourcePool k).evictedBelow (m._GetResourcePool k).size) := by
  unfold OnDestroy
  rw [flush_eq m hS hP hD, onEndFrame_getPool]
  cases k <;> first | rfl | (simp [cacheKinds] at hk)

end VResourceManager

/-! ## Lemmas on the count of events -/

theorem count_destroy_evictionEvents (k k' : EResourceKind) (i : Nat) (idx : List Nat) :
    (evictionEvents k' idx).count (Event.destroy k i) = if k = k' then idx.count i else 0 := by
  induction idx with
  | nil => simp [evictionEvents]
  | cons j idx ih =>
      have hstep : evictionEvents k' (j :: idx) =
          [Event.destroy k' j, Event.removeFromCache k' j, Event.unassign k' j] ++
            evictionEvents k' idx := by
        simp [evictionEvents, List.flatMap_cons]
      rw [hstep, List.count_append, ih]
      by_cases hk : k = k'
      · by_cases hj : j = i
        · simp [List.count_cons, hk, hj]; omega
        · have hj' : ¬ i = j := fun h => hj h.symm
          simp [List.count_cons, hk, hj, hj']
      · have hk' : ¬ k' = k := fun h => hk h.symm
        simp [List.count_cons, hk, hk']

theorem count_removeFromCache_evictionEvents (k k' : EResourceKind) (i : Nat) (idx : List Nat) :
    (evictionEvents k' idx).count (Event.removeFromCache k i) =
      if k = k' then idx.count i else 0 := by
  induction idx with
  | nil => simp [evictionEvents]
  | cons j idx ih =>
      have hstep : evictionEvents k' (j :: idx) =
          [Event.destroy k' j, Event.removeFromCache k' j, Event.unassign k' j] ++
            evictionEvents k' idx := by
        simp [evictionEvents, List.flatMap_cons]
      rw [hstep, List.count_append, ih]
      by_cases hk : k = k'
      · by_cases hj : j = i
        · simp [List.count_cons, hk, hj]; omega
        · have hj' : ¬ i = j := fun h => hj h.symm
          simp [List.count_cons, hk, hj, hj']
      · have hk' : ¬ k' = k := fun h => hk h.symm
        simp [List.count_cons, hk, hk']

theorem count_unassign_evictionEvents (k k' : EResourceKind) (i : Nat) (idx : List Nat) :
    (evictionEvents k' idx).count (Event.unassign k i) = if k = k' then idx.count i else 0 := by
  induction idx with
  | nil => simp [evictionEvents]
  | cons j idx ih =>
      have hstep : evictionEvents k' (j :: idx) =
          [Event.destroy k' j, Event.removeFromCache k' j, Event.unassign k' j] ++
            evictionEvents k' idx := by
        simp [evictionEvents, List.flatMap_cons]
      rw [hstep, List.count_append, ih]
      by_cases hk : k = k'
      · by_cases hj : j = i
        · simp [List.count_cons, hk, hj]; omega
        · have hj' : ¬ i = j := fun h => hj h.symm
          simp [List.count_cons, hk, hj, hj']
      · have hk' : ¬ k' = k := fun h => hk h.symm
        simp [List.count_cons, hk, hk']

theorem count_expected_of_poolEvent (dev : Nat) (q : List (VkDebugReportObjectTypeEXT × Nat))
    (e : Event) (he : e.isPoolEvent = true) : (q.map (expectedEvent dev)).count e = 0 := by
  rw [List.count_eq_zero]
  intro hmem
  obtain ⟨entry, _, hentry⟩ := List.mem_map.1 hmem
  unfold expectedEvent at hentry
  cases hc : destroyCallOf dev entry <;> rw [hc] at hentry <;> subst hentry <;> cases he

theorem count_destroy_unassignEvents (k : EResourceKind) (i : Nat) (q : List UntypedResourceID) :
    (q.map unassignEvent).count (Event.destroy k i) = 0 := by
  rw [List.count_eq_zero]
  intro hmem
  obtain ⟨vid, _, hvid⟩ := List.mem_map.1 hmem
  cases hvid

theorem count_removeFromCache_unassignEvents (k : EResourceKind) (i : Nat)
    (q : List UntypedResourceID) :
    (q.map unassignEvent).count (Event.removeFromCache k i) = 0 := by
  rw [List.count_eq_zero]
  intro hmem
  obtain ⟨vid, _, hvid⟩ := List.mem_map.1 hmem
  cases hvid

theorem count_liveIndices (p : Pool) (n i : Nat) :
    (p.liveIndices n).count i = if i < n ∧ p.isLive i = true then 1 else 0 := by
  have hnd : (p.liveIndices n).Nodup := (List.nodup_range n).filter _
  by_cases h : i < n ∧ p.isLive i = true
  · rw [if_pos h]
    apply List.count_eq_one_of_mem hnd
    exact List.mem_filter.2 ⟨List.mem_range.2 h.1, h.2⟩
  · rw [if_neg h, List.count_eq_zero]
    intro hmem
    have := List.mem_filter.1 hmem
    exact h ⟨List.mem_range.1 this.1, this.2⟩

theorem isLive_lt_size (p : Pool) (i : Nat) (h : p.isLive i = true) : i < p.size := by
  unfold Pool.isLive at h
  cases hs : p.slots[i]? with
  | none => rw [hs] at h; cases h
  | some r => exact getElem?_some_lt_length hs

theorem count_flushEvents_destroy (m : VResourceManager) (k : EResourceKind) (i : Nat)
    (hk : k ∈ cacheKinds) :
    (flushEvents m).count (Event.destroy k i) =
      if (m._GetResourcePool k).isLive i = true then 1 else 0 := by
  have hlive : (m.liveSlots k).count i =
      if (m._GetResourcePool k).isLive i = true then 1 else 0 := by
    unfold VResourceManager.liveSlots
    rw [count_liveIndices]
    by_cases h : (m._GetResourcePool k).isLive i = true
    · simp [h, isLive_lt_size _ _ h]
    · simp [h]
  simp only [flushEvents, cacheKinds, List.flatMap_cons, List.flatMap_nil, List.append_nil,
    List.count_append, count_destroy_evictionEvents]
  cases k <;> simp [cacheKinds] at hk <;> simpa using hlive

theorem count_flushEvents_removeFromCache (m : VResourceManager) (k : EResourceKind) (i : Nat)
    (hk : k ∈ cacheKinds) :
    (flushEvents m).count (Event.removeFromCache k i) =
      if (m._GetResourcePool k).isLive i = true then 1 else 0 := by
  have hlive : (m.liveSlots k).count i =
      if (m._GetResourcePool k).isLive i = true then 1 else 0 := by
    unfold VResourceManager.liveSlots
    rw [count_liveIndices]
    by_cases h : (m._GetResourcePool k).isLive i = true
    · simp [h, isLive_lt_size _ _ h]
    · simp [h]
  simp only [flushEvents, cacheKinds, List.flatMap_cons, List.flatMap_nil, List.append_nil,
    List.count_append, count_removeFromCache_evictionEvents]
  cases k <;> simp [cacheKinds] at hk <;> simpa using hlive

theorem count_flushEvents_unassign (m : VResourceManager) (k : EResourceKind) (i : Nat)
    (hk : k ∈ cacheKinds) :
    (flushEvents m).count (Event.unassign k i) =
      if (m._GetResourcePool k).isLive i = true then 1 else 0 := by
  have hlive : (m.liveSlots k).count i =
      if (m._GetResourcePool k).isLive i = true then 1 else 0 := by
    unfold VResourceManager.liveSlots
    rw [count_liveIndices]
    by_cases h : (m._GetResourcePool k).isLive i = true
    · simp [h, isLive_lt_size _ _ h]
    · simp [h]
  simp only [flushEvents, cacheKinds, List.flatMap_cons, List.flatMap_nil, List.append_nil,
    List.count_append, count_unassign_evictionEvents]
  cases k <;> simp [cacheKinds] at hk <;> simpa using hlive

/-! ## Lemmas on the emptiness of a cache -/

theorem Pool.unassign_states (p : Pool) (i : Nat) :
    (p.Unassign i).slots.map (fun r => r.state) = p.slots.map (fun r => r.state) := by
  unfold Pool.Unassign
  cases h : p.slots[i]? with
  | none => rfl
  | some r =>
      apply List.ext_getElem?
      intro j
      simp only [List.getElem?_map, List.getElem?_set]
      by_cases hj : i = j
      · subst hj
        simp [h, getElem?_some_lt_length h]
      · simp [hj]

theorem Pool.foldl_unassign_states (idx : List Nat) (p : Pool) :
    (idx.foldl Pool.Unassign p).slots.map (fun r => r.state) =
      p.slots.map (fun r => r.state) := by
  induction idx generalizing p with
  | nil => rfl
  | cons i idx ih => rw [List.foldl_cons, ih, Pool.unassign_states]

theorem Pool.isEmptyCache_eq (p : Pool) :
    p.isEmptyCache = (p.slots.map fun r => r.state).all fun s => decide (s = EState.Initial) := by
  unfold Pool.isEmptyCache
  induction p.slots with
  | nil => rfl
  | cons r l ih => simp only [List.all_cons, List.map_cons, ih]

theorem evictedSlot_state (r : ResourceBase) : (evictedSlot r).state = EState.Initial := by
  unfold evictedSlot
  by_cases h : r.state = EState.Initial
  · simp [h]
  · simp [h]

theorem Pool.evictedBelow_size_slots (p : Pool) :
    (p.evictedBelow p.size).slots = p.slots.map evictedSlot := by
  show (p.slots.take p.slots.length).map evictedSlot ++ p.slots.drop p.slots.length = _
  rw [List.take_length, List.drop_length, List.append_nil]

theorem Pool.isEmptyCache_after_flush (p : Pool) (idx : List Nat) :
    (idx.foldl Pool.Unassign (p.evictedBelow p.size)).isEmptyCache = true := by
  rw [Pool.isEmptyCache_eq, Pool.foldl_unassign_states, Pool.evictedBelow_size_slots,
    List.all_eq_true]
  intro s hs
  obtain ⟨r, hr, hrs⟩ := List.mem_map.1 hs
  obtain ⟨r0, _, hr0⟩ := List.mem_map.1 hr
  subst hr0
  simp [← hrs, evictedSlot_state]

/-! ## Lemmas on the native calls of `OnDestroy` -/

theorem nativeCalls_evictionEvents (k : EResourceKind) (idx : List Nat) :
    nativeCalls (evictionEvents k idx) = [] := by
  induction idx with
  | nil => rfl
  | cons i idx ih =>
      have hstep : evictionEvents k (i :: idx) =
          [Event.destroy k i, Event.removeFromCache k i, Event.unassign k i] ++
            evictionEvents k idx := by
        simp [evictionEvents, List.flatMap_cons]
      rw [hstep, nativeCalls_append, ih]
      rfl

theorem onDestroy_nativeCalls (m : VResourceManager)
    (hS : m._samplerCache.size ≤ 2 ^ 16) (hP : m._pplnLayoutCache.size ≤ 2 ^ 16)
    (hD : m._dsLayoutCache.size ≤ 2 ^ 16) :
    nativeCalls m.OnDestroy.trace =
      nativeCalls m.trace ++
        (m._readyToDelete ++ flushEntries m).filterMap (destroyCallOf m._device) := by
  have hflush : nativeCalls (flushEvents m) = [] := by
    simp [flushEvents, cacheKinds, nativeCalls_append, nativeCalls_evictionEvents]
  rw [VResourceManager.onDestroy_trace m hS hP hD, nativeCalls_append, nativeCalls_append,
    nativeCalls_append, nativeCalls_expected, nativeCalls_unassign, hflush]
  simp

theorem mem_flushEntries (m : VResourceManager) (k : EResourceKind) (i : Nat)
    (hk : k ∈ cacheKinds) (h : (m._GetResourcePool k).isLive i = true) :
    (k.objectType, (m._GetResourcePool k).handleAt i) ∈ flushEntries m := by
  have hmem : i ∈ m.liveSlots k :=
    List.mem_filter.2 ⟨List.mem_range.2 (isLive_lt_size _ _ h), h⟩
  have hent : (k.objectType, (m._GetResourcePool k).handleAt i) ∈
      evictionEntries k (m._GetResourcePool k) (m.liveSlots k) :=
    List.mem_map.2 ⟨i, hmem, rfl⟩
  unfold flushEntries
  exact List.mem_flatMap.2 ⟨k, hk, hent⟩

theorem flushEntries_supported (m : VResourceManager)
    (e : VkDebugReportObjectTypeEXT × Nat) (he : e ∈ flushEntries m) :
    isSupported e.1 = true := by
  unfold flushEntries at he
  obtain ⟨k, _, hk⟩ := List.mem_flatMap.1 he
  obtain ⟨i, _, hi⟩ := List.mem_map.1 hk
  subst hi
  cases k <;> rfl

theorem destroyCallOf_of_supported (dev : Nat) (e : VkDebugReportObjectTypeEXT × Nat)
    (h : isSupported e.1 = true) : ∃ c, destroyCallOf dev e = some c := by
  unfold isSupported at h
  cases hf : destroyFunctionOf e.1 with
  | none => rw [hf] at h; cases h
  | some f => exact ⟨f dev e.2, by simp [destroyCallOf, hf]⟩

/-! ## Claims C8 and C9 -/

/-- C8: `OnDestroy` evicts every remaining entry of the sampler, pipeline-layout
and descriptor-set-layout caches (of at most 2^16 slots, the range of the 16-bit
index): a slot not in the `Initial` state has `Destroy` invoked once, which
queues its handle so that its native destroy call is issued, is removed from the
cache once and is unassigned; a slot in the `Initial` state is left alone; after
`OnDestroy` every one of the three caches is empty. With two sampler entries and
one pipeline-layout entry remaining, all three are destroyed. -/
theorem C8_onDestroy_flushes_caches :
    (∀ m : VResourceManager,
      m._samplerCache.size ≤ 2 ^ 16 → m._pplnLayoutCache.size ≤ 2 ^ 16 →
      m._dsLayoutCache.size ≤ 2 ^ 16 →
      (∀ k ∈ cacheKinds, ∀ i : Nat,
        m.OnDestroy.trace.count (Event.destroy k i) =
          m.trace.count (Event.destroy k i) +
            (if (m._GetResourcePool k).isLive i = true then 1 else 0) ∧
        m.OnDestroy.trace.count (Event.removeFromCache k i) =
          m.trace.count (Event.removeFromCache k i) +
            (if (m._GetResourcePool k).isLive i = true then 1 else 0) ∧
        m.trace.count (Event.unassign k i) +
            (if (m._GetResourcePool k).isLive i = true then 1 else 0) ≤
          m.OnDestroy.trace.count (Event.unassign k i)) ∧
      (∀ k ∈ cacheKinds, ∀ i : Nat, (m._GetResourcePool k).isLive i = true →
        (k.objectType, (m._GetResourcePool k).handleAt i) ∈ flushEntries m ∧
        ∃ call, destroyCallOf m._device (k.objectType, (m._GetResourcePool k).handleAt i) =
            some call ∧ call ∈ nativeCalls m.OnDestroy.trace) ∧
      (∀ k ∈ cacheKinds, m.OnDestroy._GetResourcePool k =
        (queuedIndices k m._unassignIDs).foldl Pool.Unassign
          ((m._GetResourcePool k).evictedBelow (m._GetResourcePool k).size)) ∧
      (∀ k ∈ cacheKinds, (m.OnDestroy._GetResourcePool k).isEmptyCache = true)) ∧
    (nativeCalls shutdownScenario.OnDestroy.trace =
        [NativeCall.vkDestroySampler 1 11, NativeCall.vkDestroySampler 1 12,
         NativeCall.vkDestroyPipelineLayout 1 21] ∧
      shutdownScenario.OnDestroy._samplerCache.isEmptyCache = true ∧
      shutdownScenario.OnDestroy._pplnLayoutCache.isEmptyCache = true ∧
      shutdownScenario.OnDestroy._dsLayoutCache.isEmptyCache = true ∧
      shutdownScenario.OnDestroy.destructorAssertion = true) := by
  refine ⟨fun m hS hP hD => ⟨fun k hk i => ?_, fun k hk i hlive => ?_, fun k hk => ?_,
    fun k hk => ?_⟩, by decide⟩
  · rw [VResourceManager.onDestroy_trace m hS hP hD]
    simp only [List.count_append]
    rw [count_flushEvents_destroy m k i hk, count_flushEvents_removeFromCache m k i hk,
      count_flushEvents_unassign m k i hk,
      count_expected_of_poolEvent _ _ (Event.destroy k i) rfl,
      count_expected_of_poolEvent _ _ (Event.removeFromCache k i) rfl,
      count_expected_of_poolEvent _ _ (Event.unassign k i) rfl,
      count_destroy_unassignEvents, count_removeFromCache_unassignEvents]
    refine ⟨by omega, by omega, by omega⟩
  · have hmem := mem_flushEntries m k i hk hlive
    obtain ⟨call, hcall⟩ := destroyCallOf_of_supported m._device _
      (flushEntries_supported m _ hmem)
    refine ⟨hmem, call, hcall, ?_⟩
    rw [onDestroy_nativeCalls m hS hP hD]
    apply List.mem_append_right
    exact List.mem_filterMap.2 ⟨_, List.mem_append_right _ hmem, hcall⟩
  · exact VResourceManager.onDestroy_getPool m hS hP hD k hk
  · rw [VResourceManager.onDestroy_getPool m hS hP hD k hk]
    exact Pool.isEmptyCache_after_flush _ _

/-- Witness of C8: the shutdown scenario; the sampler at index 1 has `Destroy`
invoked once. -/
theorem C8_onDestroy_flushes_caches_witness :
    shutdownScenario.OnDestroy.trace.count (Event.destroy EResourceKind.Sampler 1) =
      shutdownScenario.trace.count (Event.destroy EResourceKind.Sampler 1) +
        (if (shutdownScenario._GetResourcePool EResourceKind.Sampler).isLive 1 = true
          then 1 else 0) :=
  ((C8_onDestroy_flushes_caches.1 shutdownScenario (by decide) (by decide) (by decide)).1
    EResourceKind.Sampler (by decide) 1).1

/-- Counterexample to C9 as stated: a handle queued before `OnDestroy` under an
unrecognised kind tag is dropped; `OnDestroy` returns with both queues empty and
no native destroy call issued. -/
theorem C9_unknown_tag_not_dispatched :
    (VK_DEBUG_REPORT_OBJECT_TYPE_SHADER_MODULE_EXT, 7) ∈ unknownTagScenario._readyToDelete ∧
    unknownTagScenario.OnDestroy._readyToDelete = [] ∧
    unknownTagScenario.OnDestroy._unassignIDs = [] ∧
    nativeCalls unknownTagScenario.OnDestroy.trace = [] ∧
    unknownTagScenario.OnDestroy.trace = [Event.logE] := by
  decide

/-- C9, amended: after `OnDestroy` both queues are empty, so the assertion of the
destructor holds; every handle queued before `OnDestroy` or by the flush of the
caches under a supported kind tag has had its destroy call issued, the handles
queued by the flush all carry a supported tag, and an entry with an unrecognised
tag gets no call. -/
theorem C9_onDestroy_leaves_queues_empty :
    (∀ m : VResourceManager,
      m.OnDestroy._readyToDelete = [] ∧ m.OnDestroy._unassignIDs = [] ∧
      m.OnDestroy.destructorAssertion = true) ∧
    (∀ m : VResourceManager,
      m._samplerCache.size ≤ 2 ^ 16 → m._pplnLayoutCache.size ≤ 2 ^ 16 →
      m._dsLayoutCache.size ≤ 2 ^ 16 →
      nativeCalls m.OnDestroy.trace =
        nativeCalls m.trace ++
          (m._readyToDelete ++ flushEntries m).filterMap (destroyCallOf m._device) ∧
      (∀ e ∈ m._readyToDelete ++ flushEntries m, isSupported e.1 = true →
        ∃ call, destroyCallOf m._device e = some call ∧
          call ∈ nativeCalls m.OnDestroy.trace) ∧
      (∀ e ∈ flushEntries m, isSupported e.1 = true) ∧
      (∀ e ∈ m._readyToDelete ++ flushEntries m, isSupported e.1 = false →
        destroyCallOf m._device e = none)) := by
  refine ⟨fun m => ?_, fun m hS hP hD => ⟨onDestroy_nativeCalls m hS hP hD,
    fun e he hsup => ?_, flushEntries_supported m, fun e _ hsup => ?_⟩⟩
  · have h1 : m.OnDestroy._readyToDelete = [] := VResourceManager.onEndFrame_readyToDelete _
    refine ⟨h1, VResourceManager.onEndFrame_unassignIDs _, ?_⟩
    simp [VResourceManager.destructorAssertion, h1]
  · obtain ⟨call, hcall⟩ := destroyCallOf_of_supported m._device e hsup
    refine ⟨call, hcall, ?_⟩
    rw [onDestroy_nativeCalls m hS hP hD]
    exact List.mem_append_right _ (List.mem_filterMap.2 ⟨e, he, hcall⟩)
  · unfold isSupported at hsup
    cases hf : destroyFunctionOf e.1 with
    | none => simp [destroyCallOf, hf]
    | some f => rw [hf] at hsup; cases hsup

/-- Witness of C9: the shutdown scenario. -/
theorem C9_onDestroy_leaves_queues_empty_witness :
    nativeCalls shutdownScenario.OnDestroy.trace =
      nativeCalls shutdownScenario.trace ++
        (shutdownScenario._readyToDelete ++ flushEntries shutdownScenario).filterMap
          (destroyCallOf shutdownScenario._device) :=
  (C9_onDestroy_leaves_queues_empty.2 shutdownScenario (by decide) (by decide) (by decide)).1

/-! ## Lemmas on the strong wrapper -/

theorem ResourceID.default_not_valid : ResourceID.Default.IsValid = false := by decide

theorem ResourceIDWrap.new_not_valid : ResourceIDWrap.new.IsValid = false := by decide

theorem countP_set_add {α : Type} (p : α → Bool) (l : List α) (i : Nat) (a b : α)
    (h : l[i]? = some a) :
    (l.set i b).countP p + (if p a = true then 1 else 0) =
      l.countP p + (if p b = true then 1 else 0) := by
  revert i
  induction l with
  | nil =>
      intro i h
      simp at h
  | cons y ys hrec =>
      intro i h
      match i with
      | 0 =>
          have hy : y = a := by simpa using h
          rw [hy, List.set_cons_zero, List.countP_cons, List.countP_cons]
          omega
      | k + 1 =>
          have hk : ys[k]? = some a := by simpa using h
          have hstep := hrec k hk
          rw [List.set_cons_succ, List.countP_cons, List.countP_cons]
          omega

theorem getElem?_set_validity (s : List ResourceIDWrap) (dst src : Nat)
    (a b c : ResourceIDWrap) (ha : s[dst]? = some a) (hb : s[src]? = some b)
    (hc : c.IsValid = b.IsValid) :
    ∃ w, (s.set dst c)[src]? = some w ∧ w.IsValid = b.IsValid := by
  have hlt : dst < s.length := getElem?_some_lt_length ha
  by_cases h : dst = src
  · subst h
    exact ⟨c, by simp [List.getElem?_set, hlt], hc⟩
  · exact ⟨b, by simp [List.getElem?_set, h, hb], rfl⟩

theorem WrapOp.apply_moveConstruct (s : List ResourceIDWrap) (src : Nat) (w : ResourceIDWrap)
    (h : s[src]? = some w) :
    WrapOp.apply s (WrapOp.moveConstruct src) =
      s.set src w.moveConstruct.2 ++ [w.moveConstruct.1] := by
  simp [WrapOp.apply, h]

theorem WrapOp.apply_moveAssign (s : List ResourceIDWrap) (dst src : Nat)
    (a b : ResourceIDWrap) (ha : s[dst]? = some a) (hb : s[src]? = some b) :
    WrapOp.apply s (WrapOp.moveAssign dst src) =
      (s.set dst (a.moveAssign b).1).set src (a.moveAssign b).2 := by
  simp [WrapOp.apply, ha, hb]

theorem WrapOp.apply_release (s : List ResourceIDWrap) (index : Nat) (w : ResourceIDWrap)
    (h : s[index]? = some w) :
    WrapOp.apply s (WrapOp.release index) = s.set index w.Release.2 := by
  simp [WrapOp.apply, h]

theorem WrapOp.apply_moveConstruct_none (s : List ResourceIDWrap) (src : Nat)
    (h : s[src]? = none) : WrapOp.apply s (WrapOp.moveConstruct src) = s := by
  simp [WrapOp.apply, h]

theorem WrapOp.apply_moveAssign_none (s : List ResourceIDWrap) (dst src : Nat)
    (h : s[dst]? = none ∨ s[src]? = none) :
    WrapOp.apply s (WrapOp.moveAssign dst src) = s := by
  unfold WrapOp.apply
  rcases h with h | h
  · simp [h]
  · cases hd : s[dst]? <;> simp [h]

theorem WrapOp.apply_release_none (s : List ResourceIDWrap) (index : Nat)
    (h : s[index]? = none) : WrapOp.apply s (WrapOp.release index) = s := by
  simp [WrapOp.apply, h]

/-- One step keeps the number of valid wrappers from growing and keeps every
valid wrapper holding `x`. -/
theorem WrapOp.apply_invariant (x : ResourceID) (s : List ResourceIDWrap) (op : WrapOp)
    (hx : ∀ w ∈ s, w.IsValid = true → w._id = x) :
    validCount (WrapOp.apply s op) ≤ validCount s ∧
    ∀ w ∈ WrapOp.apply s op, w.IsValid = true → w._id = x := by
  cases op with
  | moveConstruct src =>
      cases h : s[src]? with
      | none => rw [WrapOp.apply_moveConstruct_none s src h]; exact ⟨Nat.le_refl _, hx⟩
      | some w =>
          rw [WrapOp.apply_moveConstruct s src w h]
          have hcount := countP_set_add (fun w => w.IsValid) s src w w.moveConstruct.2 h
          have hinv : w.moveConstruct.2.IsValid = false := ResourceID.default_not_valid
          have hnew : w.moveConstruct.1.IsValid = w.IsValid := rfl
          refine ⟨?_, fun v hv hvalid => ?_⟩
          · simp only [validCount, List.countP_append, List.countP_cons, List.countP_nil, hnew]
            simp only [hinv] at hcount
            simp at hcount
            omega
          · rcases List.mem_append.1 hv with hv | hv
            · rcases List.mem_or_eq_of_mem_set hv with hv | hv
              · exact hx v hv hvalid
              · rw [hv, hinv] at hvalid; cases hvalid
            · rw [List.mem_singleton] at hv
              subst hv
              exact hx w (List.getElem?_mem h) hvalid
  | moveAssign dst src =>
      cases ha : s[dst]? with
      | none =>
          rw [WrapOp.apply_moveAssign_none s dst src (Or.inl ha)]; exact ⟨Nat.le_refl _, hx⟩
      | some a =>
          cases hb : s[src]? with
          | none =>
              rw [WrapOp.apply_moveAssign_none s dst src (Or.inr hb)]
              exact ⟨Nat.le_refl _, hx⟩
          | some b =>
              rw [WrapOp.apply_moveAssign s dst src a b ha hb]
              have hinv : (a.moveAssign b).2.IsValid = false := ResourceID.default_not_valid
              have htgt : (a.moveAssign b).1.IsValid = b.IsValid := rfl
              have hc1 := countP_set_add (fun w => w.IsValid) s dst a (a.moveAssign b).1 ha
              obtain ⟨w, hw, hwv⟩ := getElem?_set_validity s dst src a b _ ha hb htgt
              have hc2 := countP_set_add (fun w => w.IsValid) (s.set dst (a.moveAssign b).1)
                src w (a.moveAssign b).2 hw
              refine ⟨?_, fun v hv hvalid => ?_⟩
              · simp only [validCount]
                simp only [htgt] at hc1
                simp only [hwv, hinv] at hc2
                simp at hc2
                omega
              · rcases List.mem_or_eq_of_mem_set hv with hv | hv
                · rcases List.mem_or_eq_of_mem_set hv with hv | hv
                  · exact hx v hv hvalid
                  · subst hv
                    exact hx b (List.getElem?_mem hb) hvalid
                · rw [hv, hinv] at hvalid; cases hvalid
  | release index =>
      cases h : s[index]? with
      | none => rw [WrapOp.apply_release_none s index h]; exact ⟨Nat.le_refl _, hx⟩
      | some w =>
          rw [WrapOp.apply_release s index w h]
          have hcount := countP_set_add (fun w => w.IsValid) s index w w.Release.2 h
          have hinv : w.Release.2.IsValid = false := ResourceID.default_not_valid
          refine ⟨?_, fun v hv hvalid => ?_⟩
          · simp only [validCount]
            simp only [hinv] at hcount
            simp at hcount
            omega
          · rcases List.mem_or_eq_of_mem_set hv with hv | hv
            · exact hx v hv hvalid
            · rw [hv, hinv] at hvalid; cases hvalid
  | defaultConstruct =>
      show validCount (s ++ [ResourceIDWrap.new]) ≤ validCount s ∧
        ∀ w ∈ s ++ [ResourceIDWrap.new], w.IsValid = true → w._id = x
      refine ⟨?_, fun v hv hvalid => ?_⟩
      · simp [validCount, List.countP_append, ResourceIDWrap.new_not_valid]
      · rcases List.mem_append.1 hv with hv | hv
        · exact hx v hv hvalid
        · rw [List.mem_singleton] at hv
          rw [hv, ResourceIDWrap.new_not_valid] at hvalid; cases hvalid

theorem runWrapOps_invariant (x : ResourceID) (ops : List WrapOp) (s : List ResourceIDWrap)
    (hx : ∀ w ∈ s, w.IsValid = true → w._id = x) :
    validCount (runWrapOps ops s) ≤ validCount s ∧
    ∀ w ∈ runWrapOps ops s, w.IsValid = true → w._id = x := by
  induction ops generalizing s with
  | nil => exact ⟨Nat.le_refl _, hx⟩
  | cons op ops ih =>
      have hstep := WrapOp.apply_invariant x s op hx
      have hrest := ih (WrapOp.apply s op) hstep.2
      exact ⟨Nat.le_trans hrest.1 hstep.1, hrest.2⟩

/-! ## Claims C11 to C14 and C16 to C18 -/

/-- C11: for every strong wrapper holding the weak identity `x`, `Release()`
returns `x` and leaves the wrapper invalid, holding the default identity, so that
a second `Release()` returns the invalid default identity; `Get()` returns `x`
without changing the wrapper, so that `Release()` after `Get()` still returns
`x`. -/
theorem C11_release_and_get (x : ResourceID) :
    (ResourceIDWrap.ofID x).Release.1 = x ∧
    (ResourceIDWrap.ofID x).Release.2.IsValid = false ∧
    (ResourceIDWrap.ofID x).Release.2 = ResourceIDWrap.new ∧
    (ResourceIDWrap.ofID x).Release.2.Release.1 = ResourceID.Default ∧
    (ResourceIDWrap.ofID x).Release.2.Release.1.IsValid = false ∧
    (ResourceIDWrap.ofID x).Get.1 = x ∧
    (ResourceIDWrap.ofID x).Get.2 = ResourceIDWrap.ofID x ∧
    (ResourceIDWrap.ofID x).Get.2.Release.1 = x :=
  ⟨rfl, ResourceID.default_not_valid, rfl, rfl, ResourceID.default_not_valid, rfl, rfl, rfl⟩

/-- C12: a strong identity has one owner. Move-construction from a wrapper holding
a valid `x` yields a wrapper holding `x` and leaves the source invalid;
move-assignment into an invalid target passes the assertion, yields a target
holding `x` and leaves the source invalid; and after any run of
move-constructions, move-assignments, releases and default constructions that
starts from one wrapper constructed from `x`, at most one wrapper is valid and
every valid wrapper holds `x`. -/
theorem C12_single_owner :
    (∀ w : ResourceIDWrap, w.IsValid = true →
      w.moveConstruct.1._id = w._id ∧ w.moveConstruct.1.IsValid = true ∧
      w.moveConstruct.2.IsValid = false) ∧
    (∀ target w : ResourceIDWrap, target.IsValid = false → w.IsValid = true →
      target.moveAssignAssertion = true ∧
      (target.moveAssign w).1._id = w._id ∧ (target.moveAssign w).1.IsValid = true ∧
      (target.moveAssign w).2.IsValid = false) ∧
    (∀ (x : ResourceID) (ops : List WrapOp),
      validCount (runWrapOps ops [ResourceIDWrap.ofID x]) ≤ 1 ∧
      ∀ w ∈ runWrapOps ops [ResourceIDWrap.ofID x], w.IsValid = true → w._id = x) := by
  refine ⟨fun w hw => ⟨rfl, hw, ResourceID.default_not_valid⟩,
    fun target w ht hw => ⟨?_, rfl, hw, ResourceID.default_not_valid⟩, fun x ops => ?_⟩
  · simp [ResourceIDWrap.moveAssignAssertion, ht]
  · have hx : ∀ w ∈ [ResourceIDWrap.ofID x], w.IsValid = true → w._id = x := by
      intro w hw _
      rw [List.mem_singleton] at hw
      rw [hw]
      rfl
    have h := runWrapOps_invariant x ops [ResourceIDWrap.ofID x] hx
    refine ⟨Nat.le_trans h.1 ?_, h.2⟩
    simp only [validCount, List.countP_cons, List.countP_nil]
    split <;> omega

/-- Witness of C12: the wrapper constructed from the identity `(3, 1)`, moved into
a default-constructed wrapper. -/
theorem C12_single_owner_witness :
    ResourceIDWrap.new.moveAssignAssertion = true ∧
    (ResourceIDWrap.new.moveAssign (ResourceIDWrap.ofID (ResourceID.ofIndex 3 1))).1._id =
      (ResourceIDWrap.ofID (ResourceID.ofIndex 3 1))._id ∧
    (ResourceIDWrap.new.moveAssign (ResourceIDWrap.ofID (ResourceID.ofIndex 3 1))).1.IsValid =
      true ∧
    (ResourceIDWrap.new.moveAssign (ResourceIDWrap.ofID (ResourceID.ofIndex 3 1))).2.IsValid =
      false :=
  C12_single_owner.2.1 ResourceIDWrap.new (ResourceIDWrap.ofID (ResourceID.ofIndex 3 1))
    (by decide) (by decide)

/-- C13: the assertion of the destructor holds for a wrapper that is
default-constructed, released or moved from (by the move constructor or by the
move assignment), and fails for a wrapper constructed from a valid identity that
was neither released nor moved from; the assertion of the move assignment holds
exactly when the target is invalid. -/
theorem C13_destructor_assertion :
    ResourceIDWrap.new.destructorAssertion = true ∧
    (∀ w : ResourceIDWrap, w.Release.2.destructorAssertion = true) ∧
    (∀ w : ResourceIDWrap, w.moveConstruct.2.destructorAssertion = true) ∧
    (∀ target w : ResourceIDWrap, (target.moveAssign w).2.destructorAssertion = true) ∧
    (∀ x : ResourceID, x.IsValid = true →
      (ResourceIDWrap.ofID x).destructorAssertion = false) ∧
    (∀ target : ResourceIDWrap,
      target.moveAssignAssertion = true ↔ target.IsValid = false) := by
  have hd : (ResourceIDWrap.mk ResourceID.Default).destructorAssertion = true := by decide
  refine ⟨by decide, fun _ => hd, fun _ => hd, fun _ _ => hd, fun x hx => ?_, fun t => ?_⟩
  · have hv : (ResourceIDWrap.ofID x).IsValid = true := hx
    simp [ResourceIDWrap.destructorAssertion, hv]
  · simp [ResourceIDWrap.moveAssignAssertion]

/-- Witness of C13: the wrapper constructed from the valid identity `(3, 1)`. -/
theorem C13_destructor_assertion_witness :
    (ResourceIDWrap.ofID (ResourceID.ofIndex 3 1)).destructorAssertion = false :=
  C13_destructor_assertion.2.2.2.2.1 (ResourceID.ofIndex 3 1) (by decide)

/-- C14: for two named identities of the same type, optimized or not, every
comparison is decided by the hashes alone: `==`, `!=`, `>`, `<`, `>=`, `<=` hold
exactly when the hashes stand in that relation; exactly one of `<`, `==`, `>`
holds; and two non-optimized identities built from different names whose hashes
collide compare equal. -/
theorem C14_comparisons_by_hash :
    (∀ a b : IDWithString,
      (a.eq b = true ↔ a.GetHash = b.GetHash) ∧ (a.ne b = true ↔ a.GetHash ≠ b.GetHash) ∧
      (a.gt b = true ↔ a.GetHash > b.GetHash) ∧ (a.lt b = true ↔ a.GetHash < b.GetHash) ∧
      (a.ge b = true ↔ a.GetHash ≥ b.GetHash) ∧ (a.le b = true ↔ a.GetHash ≤ b.GetHash) ∧
      ((a.lt b = true ∧ a.eq b = false ∧ a.gt b = false) ∨
        (a.lt b = false ∧ a.eq b = true ∧ a.gt b = false) ∨
        (a.lt b = false ∧ a.eq b = false ∧ a.gt b = true))) ∧
    (∀ a b : IDWithStringFalse,
      (a.eq b = true ↔ a.GetHash = b.GetHash) ∧ (a.ne b = true ↔ a.GetHash ≠ b.GetHash) ∧
      (a.gt b = true ↔ a.GetHash > b.GetHash) ∧ (a.lt b = true ↔ a.GetHash < b.GetHash) ∧
      (a.ge b = true ↔ a.GetHash ≥ b.GetHash) ∧ (a.le b = true ↔ a.GetHash ≤ b.GetHash) ∧
      ((a.lt b = true ∧ a.eq b = false ∧ a.gt b = false) ∨
        (a.lt b = false ∧ a.eq b = true ∧ a.gt b = false) ∨
        (a.lt b = false ∧ a.eq b = false ∧ a.gt b = true))) ∧
    (∀ (H : List Char → Nat → HashVal) (Seed : Nat) (n₁ n₂ : List Char), n₁ ≠ n₂ →
      CT_Hash H n₁ n₁.length Seed = CT_Hash H n₂ n₂.length Seed →
      (IDWithStringFalse.ofStringView H Seed n₁).eq
          (IDWithStringFalse.ofStringView H Seed n₂) = true ∧
        (IDWithStringFalse.ofStringView H Seed n₁).GetName ≠
          (IDWithStringFalse.ofStringView H Seed n₂).GetName) := by
  refine ⟨fun a b => ?_, fun a b => ?_, fun H Seed n₁ n₂ hne hcol => ⟨?_, hne⟩⟩
  · refine ⟨by simp [IDWithString.eq, IDWithString.GetHash],
      by simp [IDWithString.ne, IDWithString.eq, IDWithString.GetHash],
      by simp [IDWithString.gt, IDWithString.GetHash],
      by simp [IDWithString.lt, IDWithString.gt, IDWithString.GetHash],
      by simp [IDWithString.ge, IDWithString.lt, IDWithString.gt, IDWithString.GetHash],
      by simp [IDWithString.le, IDWithString.gt, IDWithString.GetHash], ?_⟩
    simp only [IDWithString.eq, IDWithString.gt, IDWithString.lt, beq_iff_eq, beq_eq_false_iff_ne,
      decide_eq_true_eq, decide_eq_false_iff_not, ne_eq, gt_iff_lt]
    rcases Nat.lt_trichotomy a._hash b._hash with h | h | h
    · exact Or.inl ⟨h, Nat.ne_of_lt h, Nat.lt_asymm h⟩
    · exact Or.inr (Or.inl ⟨by rw [h]; exact Nat.lt_irrefl _, h, by rw [h]; exact Nat.lt_irrefl _⟩)
    · exact Or.inr (Or.inr ⟨Nat.lt_asymm h, fun he => Nat.ne_of_gt h he, h⟩)
  · refine ⟨by simp [IDWithStringFalse.eq, IDWithStringFalse.GetHash],
      by simp [IDWithStringFalse.ne, IDWithStringFalse.eq, IDWithStringFalse.GetHash],
      by simp [IDWithStringFalse.gt, IDWithStringFalse.GetHash],
      by simp [IDWithStringFalse.lt, IDWithStringFalse.gt, IDWithStringFalse.GetHash],
      by simp [IDWithStringFalse.ge, IDWithStringFalse.lt, IDWithStringFalse.gt, IDWithStringFalse.GetHash],
      by simp [IDWithStringFalse.le, IDWithStringFalse.gt, IDWithStringFalse.GetHash], ?_⟩
    simp only [IDWithStringFalse.eq, IDWithStringFalse.gt, IDWithStringFalse.lt, beq_iff_eq, beq_eq_false_iff_ne,
      decide_eq_true_eq, decide_eq_false_iff_not, ne_eq, gt_iff_lt]
    rcases Nat.lt_trichotomy a._hash b._hash with h | h | h
    · exact Or.inl ⟨h, Nat.ne_of_lt h, Nat.lt_asymm h⟩
    · exact Or.inr (Or.inl ⟨by rw [h]; exact Nat.lt_irrefl _, h, by rw [h]; exact Nat.lt_irrefl _⟩)
    · exact Or.inr (Or.inr ⟨Nat.lt_asymm h, fun he => Nat.ne_of_gt h he, h⟩)
  · simp [IDWithStringFalse.eq, IDWithStringFalse.ofStringView, hcol]

/-- Witness of C14: under the length hash the names `a` and `b` collide. -/
theorem C14_comparisons_by_hash_witness :
    (IDWithStringFalse.ofStringView lengthHash UMax ['a']).eq
        (IDWithStringFalse.ofStringView lengthHash UMax ['b']) = true ∧
      (IDWithStringFalse.ofStringView lengthHash UMax ['a']).GetName ≠
        (IDWithStringFalse.ofStringView lengthHash UMax ['b']).GetName :=
  C14_comparisons_by_hash.2.2 lengthHash UMax ['a'] ['b'] (by decide) (by decide)

/-- C16: the packing is injective: for 16-bit fields, `ResourceID(i, g) ==
ResourceID(i', g')` exactly when `i = i'` and `g = g'`; two identities with the
same index and different generations are not equal; and `!=` is the negation of
`==`. -/
theorem C16_packing_injective :
    (∀ i g i' g' : Nat, i < 2 ^ 16 → g < 2 ^ 16 → i' < 2 ^ 16 → g' < 2 ^ 16 →
      ((ResourceID.ofIndex i g).eq (ResourceID.ofIndex i' g') = true ↔ i = i' ∧ g = g')) ∧
    (∀ i g g' : Nat, i < 2 ^ 16 → g < 2 ^ 16 → g' < 2 ^ 16 → g ≠ g' →
      (ResourceID.ofIndex i g).eq (ResourceID.ofIndex i g') = false ∧
      (ResourceID.ofIndex i g).ne (ResourceID.ofIndex i g') = true) ∧
    (∀ a b : ResourceID, a.ne b = !a.eq b) := by
  have hinj : ∀ i g i' g' : Nat, i < 2 ^ 16 → g < 2 ^ 16 → i' < 2 ^ 16 → g' < 2 ^ 16 →
      ((ResourceID.ofIndex i g).eq (ResourceID.ofIndex i' g') = true ↔ i = i' ∧ g = g') := by
    intro i g i' g' hi hg hi' hg'
    simp only [ResourceID.eq, beq_iff_eq, ResourceID.pack_eq i g hi hg,
      ResourceID.pack_eq i' g' hi' hg']
    omega
  refine ⟨hinj, fun i g g' hi hg hg' hne => ?_, fun _ _ => rfl⟩
  have hf : (ResourceID.ofIndex i g).eq (ResourceID.ofIndex i g') = false := by
    cases h : (ResourceID.ofIndex i g).eq (ResourceID.ofIndex i g') with
    | false => rfl
    | true => exact absurd ((hinj i g i g' hi hg hi hg').1 h).2 hne
  exact ⟨hf, by simp [ResourceID.ne, hf]⟩

/-- Witness of C16: the identities `(3, 0)` and `(3, 1)`. -/
theorem C16_packing_injective_witness :
    (ResourceID.ofIndex 3 0).eq (ResourceID.ofIndex 3 1) = false ∧
    (ResourceID.ofIndex 3 0).ne (ResourceID.ofIndex 3 1) = true :=
  C16_packing_injective.2.1 3 0 1 (by decide) (by decide) (by decide) (by decide)

/-- C17: the conversion of a non-optimized named identity to its optimized form
keeps the hash, hence every comparison and `IsDefined()`: for all non-optimized
`a` and `b` the optimized forms compare as `a` and `b` do under `==`, `!=`, `<`,
`>`, `<=`, `>=`, and are defined exactly when `a` is. -/
theorem C17_optimized_preserves_hash (H : List Char → Nat → HashVal) (Seed : Nat)
    (a b : IDWithStringFalse) :
    a.toOptimized.GetHash = a.GetHash ∧
    (a.eq b = true ↔ a.toOptimized.eq b.toOptimized = true) ∧
    (a.lt b = true ↔ a.toOptimized.lt b.toOptimized = true) ∧
    a.toOptimized.ne b.toOptimized = a.ne b ∧
    a.toOptimized.gt b.toOptimized = a.gt b ∧
    a.toOptimized.le b.toOptimized = a.le b ∧
    a.toOptimized.ge b.toOptimized = a.ge b ∧
    (a.IsDefined H Seed = true ↔ a.toOptimized.IsDefined H Seed = true) ∧
    IDWithStringFalse._emptyHash H Seed = IDWithString._emptyHash H Seed :=
  ⟨rfl, Iff.rfl, Iff.rfl, rfl, rfl, rfl, rfl, Iff.rfl, rfl⟩

/-- C18: for both kinds of named identity, `IsDefined()` holds exactly when the
hash differs from the seeded hash of the empty string: the default-constructed
identity is not defined; an identity constructed from the empty string, as a
string view or as a C string, equals the default-constructed one and is not
defined; an identity constructed from a raw hash `h` is defined exactly when `h`
is not the empty-string hash; so a non-empty name whose hash collides with the
empty-string hash is reported as not defined. -/
theorem C18_isDefined_iff_not_empty_hash (H : List Char → Nat → HashVal) (Seed : Nat) :
    ((∀ a : IDWithString, a.IsDefined H Seed = true ↔ a.GetHash ≠ CT_Hash H [] 0 Seed) ∧
      (IDWithString.new H Seed).IsDefined H Seed = false ∧
      IDWithString.ofStringView H Seed [] = IDWithString.new H Seed ∧
      IDWithString.ofCString H Seed [] = IDWithString.new H Seed ∧
      (IDWithString.ofStringView H Seed []).eq (IDWithString.new H Seed) = true ∧
      (IDWithString.ofStringView H Seed []).IsDefined H Seed = false ∧
      (∀ h : HashVal, (IDWithString.ofHash h).IsDefined H Seed = true ↔
        h ≠ CT_Hash H [] 0 Seed) ∧
      (∀ name : List Char, name ≠ [] →
        CT_Hash H name name.length Seed = CT_Hash H [] 0 Seed →
        (IDWithString.ofStringView H Seed name).IsDefined H Seed = false)) ∧
    ((∀ a : IDWithStringFalse, a.IsDefined H Seed = true ↔ a.GetHash ≠ CT_Hash H [] 0 Seed) ∧
      (IDWithStringFalse.new H Seed).IsDefined H Seed = false ∧
      IDWithStringFalse.ofStringView H Seed [] = IDWithStringFalse.new H Seed ∧
      IDWithStringFalse.ofCString H Seed [] = IDWithStringFalse.new H Seed ∧
      (IDWithStringFalse.ofStringView H Seed []).eq (IDWithStringFalse.new H Seed) = true ∧
      (IDWithStringFalse.ofStringView H Seed []).IsDefined H Seed = false ∧
      (∀ h : HashVal, (IDWithStringFalse.ofHash h).IsDefined H Seed = true ↔
        h ≠ CT_Hash H [] 0 Seed) ∧
      (∀ name : List Char, name ≠ [] →
        CT_Hash H name name.length Seed = CT_Hash H [] 0 Seed →
        (IDWithStringFalse.ofStringView H Seed name).IsDefined H Seed = false)) := by
  have hnew : (IDWithString.new H Seed).IsDefined H Seed = false := by
    simp [IDWithString.IsDefined, IDWithString.new]
  have hnew' : (IDWithStringFalse.new H Seed).IsDefined H Seed = false := by
    simp [IDWithStringFalse.IsDefined, IDWithStringFalse.new]
  refine ⟨⟨fun a => ?_, hnew, rfl, rfl, ?_, hnew, fun h => ?_, fun name _ hcol => ?_⟩,
    ⟨fun a => ?_, hnew', rfl, rfl, ?_, hnew', fun h => ?_, fun name _ hcol => ?_⟩⟩
  · simp [IDWithString.IsDefined, IDWithString._emptyHash, IDWithString.GetHash]
  · simp [IDWithString.eq, IDWithString.ofStringView, IDWithString.new,
      IDWithString._emptyHash]
  · simp [IDWithString.IsDefined, IDWithString._emptyHash, IDWithString.ofHash]
  · simp [IDWithString.IsDefined, IDWithString._emptyHash, IDWithString.ofStringView, hcol]
  · simp [IDWithStringFalse.IsDefined, IDWithStringFalse._emptyHash,
      IDWithStringFalse.GetHash]
  · simp [IDWithStringFalse.eq, IDWithStringFalse.ofStringView, IDWithStringFalse.new,
      IDWithStringFalse._emptyHash]
  · simp [IDWithStringFalse.IsDefined, IDWithStringFalse._emptyHash,
      IDWithStringFalse.ofHash]
  · simp [IDWithStringFalse.IsDefined, IDWithStringFalse._emptyHash,
      IDWithStringFalse.ofStringView, hcol]

/-- Witness of C18: under the hash that returns its seed, the name `a` collides
with the empty string and is reported as not defined. -/
theorem C18_isDefined_iff_not_empty_hash_witness :
    (IDWithString.ofStringView seedHash UMax ['a']).IsDefined seedHash UMax = false :=
  (C18_isDefined_iff_not_empty_hash seedHash UMax).1.2.2.2.2.2.2.2 ['a'] (by decide) (by decide)

/-! ## Lemmas on the routing of allocation requests -/

theorem VMemoryManager.route_invoked_supported (call : IMemoryAllocator → Option Storage_t)
    (type : EMemoryType) (allocs : List IMemoryAllocator) (index : Nat) :
    ∀ n ∈ (VMemoryManager.route call type index allocs).invoked,
      index ≤ n ∧ ∃ a, allocs[n - index]? = some a ∧ a.IsSupported type = true := by
  induction allocs generalizing index with
  | nil => intro n hn; simp [VMemoryManager.route] at hn
  | cons alloc rest ih =>
      intro n hn
      have hshift : ∀ m, index + 1 ≤ m →
          (∃ a, rest[m - (index + 1)]? = some a ∧ a.IsSupported type = true) →
          ∃ a, (alloc :: rest)[m - index]? = some a ∧ a.IsSupported type = true := by
        intro m hm ⟨a, ha, hs⟩
        refine ⟨a, ?_, hs⟩
        have : m - index = (m - (index + 1)) + 1 := by omega
        rw [this, List.getElem?_cons_succ]
        exact ha
      unfold VMemoryManager.route at hn
      by_cases hs : alloc.IsSupported type = true
      · simp only [hs, if_true] at hn
        cases hc : call alloc with
        | some data =>
            simp only [hc, List.mem_singleton] at hn
            subst hn
            exact ⟨Nat.le_refl _, alloc, by simp, hs⟩
        | none =>
            simp only [hc, List.mem_cons] at hn
            rcases hn with hn | hn
            · subst hn
              exact ⟨Nat.le_refl _, alloc, by simp, hs⟩
            · have h := ih (index + 1) n hn
              exact ⟨by omega, hshift n h.1 h.2⟩
      · simp only [hs] at hn
        have h := ih (index + 1) n hn
        exact ⟨by omega, hshift n h.1 h.2⟩

theorem VMemoryManager.route_invoked_increasing (call : IMemoryAllocator → Option Storage_t)
    (type : EMemoryType) (allocs : List IMemoryAllocator) (index : Nat) :
    (VMemoryManager.route call type index allocs).invoked.Pairwise (fun a b => a < b) := by
  induction allocs generalizing index with
  | nil => simp [VMemoryManager.route]
  | cons alloc rest ih =>
      unfold VMemoryManager.route
      by_cases hs : alloc.IsSupported type = true
      · simp only [hs, if_true]
        cases hc : call alloc with
        | some data => simp
        | none =>
            simp only [List.pairwise_cons]
            refine ⟨fun n hn => ?_, ih (index + 1)⟩
            have := (VMemoryManager.route_invoked_supported call type rest (index + 1) n hn).1
            omega
      · simp only [hs]
        exact ih (index + 1)

theorem VMemoryManager.route_first_supported (call : IMemoryAllocator → Option Storage_t)
    (type : EMemoryType) (allocs : List IMemoryAllocator) (index j : Nat)
    (a : IMemoryAllocator) (ha : allocs[j]? = some a) (hs : a.IsSupported type = true)
    (hfirst : ∀ k b, k < j → allocs[k]? = some b → b.IsSupported type = false) :
    (VMemoryManager.route call type index allocs).invoked.head? = some (index + j) ∧
    (∀ data, call a = some data →
      VMemoryManager.route call type index allocs =
        { invoked := [index + j], result := some (index + j, data) }) := by
  induction allocs generalizing index j with
  | nil => simp at ha
  | cons alloc rest ih =>
      cases j with
      | zero =>
          simp only [List.getElem?_cons_zero, Option.some.injEq] at ha
          subst ha
          unfold VMemoryManager.route
          simp only [hs, if_true, Nat.add_zero]
          cases hc : call alloc with
          | some data =>
              refine ⟨rfl, fun d hd => ?_⟩
              cases hd
              rfl
          | none => exact ⟨rfl, fun d hd => by cases hd⟩
      | succ j =>
          have h0 : alloc.IsSupported type = false :=
            hfirst 0 alloc (Nat.succ_pos j) (by simp)
          have hrest : ∀ k b, k < j → rest[k]? = some b → b.IsSupported type = false := by
            intro k b hk hb
            exact hfirst (k + 1) b (Nat.succ_lt_succ hk) (by simpa using hb)
          have ha' : rest[j]? = some a := by simpa using ha
          have h := ih (index + 1) j ha' hrest
          have hidx : index + 1 + j = index + (j + 1) := by omega
          unfold VMemoryManager.route
          simp only [h0]
          rw [← hidx]
          exact h

theorem VMemoryManager.route_none_supported (call : IMemoryAllocator → Option Storage_t)
    (type : EMemoryType) (allocs : List IMemoryAllocator) (index : Nat)
    (h : ∀ a ∈ allocs, a.IsSupported type = false) :
    VMemoryManager.route call type index allocs = { invoked := [], result := none } := by
  induction allocs generalizing index with
  | nil => rfl
  | cons alloc rest ih =>
      unfold VMemoryManager.route
      simp only [h alloc (List.mem_cons_self _ _)]
      exact ih (index + 1) fun a ha => h a (List.mem_cons_of_mem _ ha)

theorem VMemoryManager.route_result (call : IMemoryAllocator → Option Storage_t)
    (type : EMemoryType) (allocs : List IMemoryAllocator) (index k : Nat) (data : Storage_t)
    (h : (VMemoryManager.route call type index allocs).result = some (k, data)) :
    (VMemoryManager.route call type index allocs).invoked.getLast? = some k ∧
    index ≤ k ∧
    ∃ a, allocs[k - index]? = some a ∧ a.IsSupported type = true ∧ call a = some data := by
  induction allocs generalizing index with
  | nil => simp [VMemoryManager.route] at h
  | cons alloc rest ih =>
      have hshift : index + 1 ≤ k →
          (∃ a, rest[k - (index + 1)]? = some a ∧ a.IsSupported type = true ∧
            call a = some data) →
          ∃ a, (alloc :: rest)[k - index]? = some a ∧ a.IsSupported type = true ∧
            call a = some data := by
        intro hk ⟨a, ha, hs⟩
        refine ⟨a, ?_, hs⟩
        have : k - index = (k - (index + 1)) + 1 := by omega
        rw [this, List.getElem?_cons_succ]
        exact ha
      unfold VMemoryManager.route at h ⊢
      by_cases hs : alloc.IsSupported type = true
      · simp only [hs, if_true] at h ⊢
        cases hc : call alloc with
        | some d =>
            simp only [hc, Option.some.injEq, Prod.mk.injEq] at h
            obtain ⟨hk, hd⟩ := h
            subst hk hd
            exact ⟨rfl, Nat.le_refl _, alloc, by simp, hs, hc⟩
        | none =>
            simp only [hc] at h
            have hr := ih (index + 1) h
            refine ⟨?_, by omega, hshift hr.2.1 hr.2.2⟩
            simp only []
            cases hinv : (VMemoryManager.route call type (index + 1) rest).invoked with
            | nil => rw [hinv] at hr; simp at hr
            | cons x xs =>
                rw [hinv] at hr
                rw [List.getLast?_cons_cons]
                exact hr.1
      · simp only [hs] at h ⊢
        have hr := ih (index + 1) h
        exact ⟨hr.1, by omega, hshift hr.2.1 hr.2.2⟩

theorem noneSupportsBefore_spec (allocs : List IMemoryAllocator) (type : EMemoryType) (j : Nat)
    (h : noneSupportsBefore allocs type j = true) :
    ∀ k b, k < j → allocs[k]? = some b → b.IsSupported type = false := by
  intro k b hk hb
  unfold noneSupportsBefore at h
  rw [List.all_eq_true] at h
  have hmem : b ∈ allocs.take j := by
    apply List.getElem?_mem (n := k)
    rw [List.getElem?_take, if_pos hk]
    exact hb
  simpa using h b hmem

theorem VMemoryManager.route_routed (call : IMemoryAllocator → Option Storage_t)
    (type : EMemoryType) (allocs : List IMemoryAllocator) :
    RoutedInRegistrationOrder allocs type call (VMemoryManager.route call type 0 allocs) := by
  refine ⟨fun n hn => ?_, VMemoryManager.route_invoked_increasing call type allocs 0,
    fun j a ha hs hfirst => ?_, VMemoryManager.route_none_supported call type allocs 0,
    fun k data h => ?_⟩
  · simpa using (VMemoryManager.route_invoked_supported call type allocs 0 n hn).2
  · simpa using VMemoryManager.route_first_supported call type allocs 0 j a ha hs
      (noneSupportsBefore_spec allocs type j hfirst)
  · simpa using VMemoryManager.route_result call type allocs 0 k data h

/-! ## Claim C15 -/

/-- C15: for every list of at most 16 registered allocator strategies and every
request for an image or for a buffer, the manager invokes only strategies whose
`IsSupported` accepts the requested memory type, in registration order, starting
with the first such strategy, which serves the request when its allocation
succeeds; when no strategy supports the type nothing is invoked and the request
fails. With `Dedicated` (device-local only) registered before `HostOnly`
(host-visible only), a host-visible request is served by `HostOnly` and the
allocation of `Dedicated` is never invoked. -/
theorem C15_first_supporting_strategy :
    (∀ (m : VMemoryManager) (handle : Nat) (desc : MemoryDesc), m._allocators.length ≤ 16 →
      RoutedInRegistrationOrder m._allocators desc.type
        (fun alloc => alloc.AllocForImage handle desc) (m.AllocateForImage handle desc) ∧
      RoutedInRegistrationOrder m._allocators desc.type
        (fun alloc => alloc.AllocForBuffer handle desc) (m.AllocateForBuffer handle desc)) ∧
    (∀ handle size alignment : Nat,
      scenarioMemoryManager.AllocateForImage handle ⟨EMemoryType.HostVisible, size, alignment⟩ =
        { invoked := [1], result := some (1, 200) } ∧
      scenarioMemoryManager.AllocateForBuffer handle ⟨EMemoryType.HostVisible, size, alignment⟩ =
        { invoked := [1], result := some (1, 200) } ∧
      0 ∉ (scenarioMemoryManager.AllocateForImage handle
        ⟨EMemoryType.HostVisible, size, alignment⟩).invoked ∧
      scenarioMemoryManager._allocators[1]? = some hostOnlyAllocator) :=
  ⟨fun m handle desc _ =>
    ⟨VMemoryManager.route_routed _ desc.type m._allocators,
      VMemoryManager.route_routed _ desc.type m._allocators⟩,
    fun _ _ _ => ⟨rfl, rfl, by show (0 : Nat) ∉ [1]; decide, rfl⟩⟩

/-- Witness of C15: the manager of the scenario and a host-visible image request. -/
theorem C15_first_supporting_strategy_witness :
    RoutedInRegistrationOrder scenarioMemoryManager._allocators EMemoryType.HostVisible
      (fun alloc => alloc.AllocForImage 7 ⟨EMemoryType.HostVisible, 64, 16⟩)
      (scenarioMemoryManager.AllocateForImage 7 ⟨EMemoryType.HostVisible, 64, 16⟩) :=
  (C15_first_supporting_strategy.1 scenarioMemoryManager 7 ⟨EMemoryType.HostVisible, 64, 16⟩
    (by decide)).1

/-! ## Lemmas on the well-formed unassignment queue -/

/-- Outside the well-formed queues: a hand-built manager whose sampler slot 0 holds
an entry while its identity stands on the unassignment queue, a state that no
release leaves behind. The flush unassigns the slot and the replay of the queue
unassigns it again. -/
theorem onDestroy_queued_live_slot :
    queuedLiveSlotScenario.OnDestroy.trace.count (Event.unassign EResourceKind.Sampler 0) = 2 ∧
    queuedLiveSlotScenario.OnDestroy.trace =
      [Event.destroy EResourceKind.Sampler 0, Event.removeFromCache EResourceKind.Sampler 0,
       Event.unassign EResourceKind.Sampler 0, Event.native (NativeCall.vkDestroySampler 1 11),
       Event.unassign EResourceKind.Sampler 0] ∧
    queuedLiveSlotScenario.OnDestroy._samplerCache =
      ⟨[⟨0, EState.Initial, 2, none⟩], [0, 0]⟩ := by
  decide

/-! ## Claim C10 -/

end FG
